import Mathlib

/-!
Shallow embedding of the intersection-resolution subsystem of
rust-geo-booleanop: the `possible_intersection` decision procedure
(src/src/boolean/possible_intersection.rs) over a state of mutable sweep
events.  The collaborators that the source file consumes — the sweep-event
record and its heap ordering, the segment splitter `divide_segment`, and the
geometry predicate `intersection` — are not part of the sources under
verification, so they are modelled from the specification (marked
`Modelled from the spec:` below).  Rust's shared mutable `Rc<SweepEvent>`
cells are embedded as an indexed store of event records inside an explicit
`State`, with mutation as functional state update; the event queue
(`BinaryHeap`, push-only in this code) is embedded as the list of pushed
event indices, and a ghost `log` field records every splitter invocation
together with the current endpoints of the edge being split, so that
splitter-precondition properties can be stated.
-/

set_option linter.unusedSectionVars false
set_option maxHeartbeats 1000000

namespace Booleanop

/-- Edge classification tags carried by a sweep event (spec section 3:
Normal at creation, reassigned only by the resolver in the overlap branch). -/
inductive EdgeType where
  | Normal
  | NonContributing
  | SameTransition
  | DifferentTransition
deriving DecidableEq, Repr

/-- Result type of the geometry predicate (spec section 6): segments are
disjoint, meet in exactly one point, or overlap in a collinear sub-segment. -/
inductive LineIntersection (Pt : Type) where
  | None
  | Point (p : Pt)
  | Overlap (p q : Pt)
deriving DecidableEq, Repr

/-- Modelled from the spec: the sweep-event record (spec section 3; the
`SweepEvent` struct lives in sweep_event.rs, outside the verified sources).
Only the fields read or written by `possible_intersection` and the splitter
are kept: the endpoint location, the left/right flag, the index of the
complementary event (`other_event`, an `Option` because the resolver treats
a missing complementary event as malformed input), the owning polygon, the
edge classification tag and the in/out transition flag. -/
structure SweepEvent (Pt : Type) where
  point : Pt
  isLeft : Bool
  otherEvent : Option Nat
  isSubject : Bool
  edgeType : EdgeType
  inOut : Bool
deriving DecidableEq, Repr

/-- Ghost record of one splitter invocation: the index of the event whose
edge is being split, the current endpoints of that edge at the moment of the
call, and the split point passed. -/
structure SplitRecord (Pt : Type) where
  seId : Nat
  leftPoint : Pt
  rightPoint : Pt
  splitPoint : Pt
deriving DecidableEq, Repr

/-- Global state threaded through the resolver: the store of sweep events
(Rust `Rc` cells, addressed by index), the event queue as the list of pushed
indices (the `BinaryHeap` is push-only in this code path), and the ghost log
of splitter calls. -/
structure State (Pt : Type) where
  events : List (SweepEvent Pt)
  queue : List Nat
  log : List (SplitRecord Pt)
deriving DecidableEq, Repr

variable {Pt : Type} [DecidableEq Pt]

/-- Resolution of a sweep event together with its complementary event:
Rust's `se.get_other_event()` (a `Weak` upgrade), combined with the store
lookups the embedding needs.  Returns the event record, the index of its
complementary event, and the complementary record. -/
def lookupPair (st : State Pt) (i : Nat) : Option (SweepEvent Pt × Nat × SweepEvent Pt) :=
  match st.events[i]? with
  | none => none
  | some e =>
    match e.otherEvent with
    | none => none
    | some j =>
      match st.events[j]? with
      | none => none
      | some o => some (e, j, o)

/-- Edge classification tag currently stored at index `j`. -/
def edgeTypeAt (st : State Pt) (j : Nat) : Option EdgeType :=
  (st.events[j]?).map (fun e => e.edgeType)

/-- Span of the edge owned by the event at index `i`: its own point paired
with its complementary event's point. -/
def spanOf (st : State Pt) (i : Nat) : Option (Pt × Pt) :=
  match lookupPair st i with
  | some (e, _, o) => some (e.point, o.point)
  | none => none

/-- Rust's `se.set_edge_type(t)` (a `Cell` write): functional update of the
edge-type field of the event at index `i`; out-of-range indices leave the
state unchanged. -/
def setEdgeType (st : State Pt) (i : Nat) (t : EdgeType) : State Pt :=
  match st.events[i]? with
  | none => st
  | some e => { st with events := st.events.set i { e with edgeType := t } }

/-- Modelled from the spec: `divide_segment` (spec section 6, Segment
Splitter; divide_segment.rs is outside the verified sources).  It splits the
edge owned by the event at `seId` at `inter`: two fresh events at `inter`
are created (a right endpoint `r` complementary to the original left part,
a left endpoint `l` complementary to the original right part, preserving
`is_subject`), the two existing endpoints are re-pointed at them so that the
two resulting complementary pairs span exactly `(se.point, inter)` and
`(inter, other.point)`, and the two new events are pushed onto the queue
(`l` then `r`, as in the reference implementation).  Fresh events carry the
creation defaults (`Normal`, `in_out = false`); per the spec the sub-edge at
the original right endpoint inherits that endpoint's existing state.  The
ghost log records the call.  Unresolvable inputs leave the state unchanged. -/
def divide_segment (seId : Nat) (inter : Pt) (st : State Pt) : State Pt :=
  match st.events[seId]? with
  | none => st
  | some se =>
    match se.otherEvent with
    | none => st
    | some otherId =>
      match st.events[otherId]? with
      | none => st
      | some other =>
        let rId := st.events.length
        let lId := st.events.length + 1
        let r : SweepEvent Pt :=
          { point := inter, isLeft := false, otherEvent := some seId,
            isSubject := se.isSubject, edgeType := EdgeType.Normal, inOut := false }
        let l : SweepEvent Pt :=
          { point := inter, isLeft := true, otherEvent := some otherId,
            isSubject := se.isSubject, edgeType := EdgeType.Normal, inOut := false }
        { events :=
            ((st.events.set seId { se with otherEvent := some rId }).set otherId
              { other with otherEvent := some lId }) ++ [r, l],
          queue := st.queue ++ [lId, rId],
          log := st.log ++ [{ seId := seId, leftPoint := se.point,
                              rightPoint := other.point, splitPoint := inter }] }

/-- Modelled from the spec: the `Ord` instance on sweep events used by the
`<` comparisons in possible_intersection.rs (sweep_event.rs is outside the
verified sources).  Per the spec's heap-ordering-inversion design note the
comparator is the inversion of Event Ordering, whose primary key is the
point ascending; `ptLt` is the Event Ordering on points.  The same-point
tie-break is left unspecified by the spec and never reached by the use
sites here (each `<` is guarded by point inequality), so it is modelled as
not-less. -/
def sweepEventLt (ptLt : Pt → Pt → Bool) (a b : SweepEvent Pt) : Bool :=
  ptLt b.point a.point

/-- Working-entry list built by the different-polygon overlap branch
(possible_intersection.rs lines 35-57).  Each entry is a captured pair
(event, its complementary event), each reduced to the index-and-point data
the branch later reads; the Rust `Vec` holds `Rc` clones, whose `point`
field is immutable, so capturing the points at entry-build time is exact.
First the two left events in heap order (skipped when the left endpoints
coincide), then the two right events in heap order (skipped when the right
endpoints coincide), each paired with its own segment's other endpoint. -/
def overlapEntries (ptLt : Pt → Pt → Bool) (se1Id o1Id se2Id o2Id : Nat)
    (se1 other1 se2 other2 : SweepEvent Pt) : List ((Nat × Pt) × (Nat × Pt)) :=
  (if se1.point = se2.point then []
   else if sweepEventLt ptLt se1 se2 then
     [((se2Id, se2.point), (o2Id, other2.point)), ((se1Id, se1.point), (o1Id, other1.point))]
   else
     [((se1Id, se1.point), (o1Id, other1.point)), ((se2Id, se2.point), (o2Id, other2.point))]) ++
  (if other1.point = other2.point then []
   else if sweepEventLt ptLt other1 other2 then
     [((o2Id, other2.point), (se2Id, se2.point)), ((o1Id, other1.point), (se1Id, se1.point))]
   else
     [((o1Id, other1.point), (se1Id, se1.point)), ((o2Id, other2.point), (se2Id, se2.point))])

/-- Different-polygon overlap branch of `possible_intersection`
(possible_intersection.rs lines 35-92): build the working entries, then
either reclassify on a shared left endpoint (code 2, with one split when the
right endpoints differ), split once on a shared right endpoint (code 3), or
split twice (code 3), distinguishing partial overlap from full containment
by Rust's `Rc::ptr_eq(&events[0].0, &events[3].1)`, which the store
embedding renders as index equality. -/
def overlapResolve (ptLt : Pt → Pt → Bool) (se1Id o1Id se2Id o2Id : Nat)
    (se1 other1 se2 other2 : SweepEvent Pt) (st : State Pt) : Nat × State Pt :=
  let dflt : (Nat × Pt) × (Nat × Pt) := ((se1Id, se1.point), (o1Id, other1.point))
  let events := overlapEntries ptLt se1Id o1Id se2Id o2Id se1 other1 se2 other2
  if se1.point = se2.point then
    -- both line segments are equal or share the left endpoint
    let stA := setEdgeType st se2Id EdgeType.NonContributing
    let stB :=
      if se1.inOut = se2.inOut then setEdgeType stA se1Id EdgeType.SameTransition
      else setEdgeType stA se1Id EdgeType.DifferentTransition
    let stC :=
      if se1.point = se2.point ∧ ¬ other1.point = other2.point then
        divide_segment (events.getD 1 dflt).2.1 (events.getD 0 dflt).1.2 stB
      else stB
    (2, stC)
  else if other1.point = other2.point then
    -- the line segments share the right endpoint
    (3, divide_segment (events.getD 0 dflt).1.1 (events.getD 1 dflt).1.2 st)
  else if ¬ (events.getD 0 dflt).1.1 = (events.getD 3 dflt).2.1 then
    -- no line segment includes totally the other one
    let stA := divide_segment (events.getD 0 dflt).1.1 (events.getD 1 dflt).1.2 st
    let stB := divide_segment (events.getD 1 dflt).1.1 (events.getD 2 dflt).1.2 stA
    (3, stB)
  else
    -- one line segment includes the other one
    let stA := divide_segment (events.getD 0 dflt).1.1 (events.getD 1 dflt).1.2 st
    let stB := divide_segment (events.getD 3 dflt).2.1 (events.getD 2 dflt).1.2 stA
    (3, stB)

/-- Embedding of `possible_intersection` (possible_intersection.rs lines
8-94).  `intersect` is the external geometry predicate, `ptLt` the Event
Ordering on points feeding the modelled heap order, `se1Id`/`se2Id` the
indices of the two events; the result is the Rust action code paired with
the post-state. -/
def possible_intersection (intersect : Pt → Pt → Pt → Pt → LineIntersection Pt)
    (ptLt : Pt → Pt → Bool) (se1Id se2Id : Nat) (st : State Pt) : Nat × State Pt :=
  match lookupPair st se1Id, lookupPair st se2Id with
  | some (se1, o1Id, other1), some (se2, o2Id, other2) =>
    match intersect se1.point other1.point se2.point other2.point with
    | LineIntersection.None => (0, st)
    | LineIntersection.Point inter =>
      if se1.point = se2.point ∧ other1.point = other2.point then
        -- the line segments intersect at an endpoint of both line segments
        (0, st)
      else
        let st1 :=
          if ¬ se1.point = inter ∧ ¬ other1.point = inter then
            divide_segment se1Id inter st
          else st
        let st2 :=
          if ¬ se2.point = inter ∧ ¬ other2.point = inter then
            divide_segment se2Id inter st1
          else st1
        (1, st2)
    | LineIntersection.Overlap _ _ =>
      if se1.isSubject = se2.isSubject then
        -- the line segments associated to se1 and se2 overlap
        (0, st)
      else
        overlapResolve ptLt se1Id o1Id se2Id o2Id se1 other1 se2 other2 st
  | _, _ => (0, st)

/-- Event Ordering on points for concrete instances: ascending
lexicographic order on integer coordinates (spec section 6: primarily by
point ascending, x then y). -/
def lexLt (a b : Int × Int) : Bool :=
  a.1 < b.1 || (a.1 = b.1 && a.2 < b.2)

/-- Concrete store with one edge per polygon: indices 0/1 are the left and
right events of the subject edge `a1-b1`, indices 2/3 of the clip edge
`a2-b2`; the queue and log start empty. -/
def twoEdgeState (a1 b1 a2 b2 : Int × Int) (io1 io2 : Bool) : State (Int × Int) :=
  { events :=
      [ { point := a1, isLeft := true, otherEvent := some 1, isSubject := true,
          edgeType := EdgeType.Normal, inOut := io1 },
        { point := b1, isLeft := false, otherEvent := some 0, isSubject := true,
          edgeType := EdgeType.Normal, inOut := io1 },
        { point := a2, isLeft := true, otherEvent := some 3, isSubject := false,
          edgeType := EdgeType.Normal, inOut := io2 },
        { point := b2, isLeft := false, otherEvent := some 2, isSubject := false,
          edgeType := EdgeType.Normal, inOut := io2 } ],
    queue := [],
    log := [] }

/-- Condition under which `possible_intersection` is claimed to return 0:
an unresolvable complementary event, a `None` classification, a `Point`
classification with both endpoint pairs coincident, or an `Overlap`
classification between edges of the same input polygon. -/
def ret0Spec (intersect : Pt → Pt → Pt → Pt → LineIntersection Pt)
    (i1 i2 : Nat) (st : State Pt) : Prop :=
  lookupPair st i1 = none ∨ lookupPair st i2 = none ∨
  ∃ se1 o1Id other1 se2 o2Id other2,
    lookupPair st i1 = some (se1, o1Id, other1) ∧
    lookupPair st i2 = some (se2, o2Id, other2) ∧
    (intersect se1.point other1.point se2.point other2.point = LineIntersection.None ∨
     (∃ p, intersect se1.point other1.point se2.point other2.point = LineIntersection.Point p ∧
        se1.point = se2.point ∧ other1.point = other2.point) ∨
     (∃ p q, intersect se1.point other1.point se2.point other2.point = LineIntersection.Overlap p q ∧
        se1.isSubject = se2.isSubject))

/-- Condition under which `possible_intersection` is claimed to return 1:
a `Point` classification that is not coincident with both endpoint pairs. -/
def ret1Spec (intersect : Pt → Pt → Pt → Pt → LineIntersection Pt)
    (i1 i2 : Nat) (st : State Pt) : Prop :=
  ∃ se1 o1Id other1 se2 o2Id other2,
    lookupPair st i1 = some (se1, o1Id, other1) ∧
    lookupPair st i2 = some (se2, o2Id, other2) ∧
    ∃ p, intersect se1.point other1.point se2.point other2.point = LineIntersection.Point p ∧
      ¬ (se1.point = se2.point ∧ other1.point = other2.point)

/-- Condition under which `possible_intersection` is claimed to return 2:
an `Overlap` classification between different polygons with coincident left
endpoints. -/
def ret2Spec (intersect : Pt → Pt → Pt → Pt → LineIntersection Pt)
    (i1 i2 : Nat) (st : State Pt) : Prop :=
  ∃ se1 o1Id other1 se2 o2Id other2,
    lookupPair st i1 = some (se1, o1Id, other1) ∧
    lookupPair st i2 = some (se2, o2Id, other2) ∧
    (∃ p q, intersect se1.point other1.point se2.point other2.point = LineIntersection.Overlap p q) ∧
    ¬ se1.isSubject = se2.isSubject ∧ se1.point = se2.point

/-- Condition under which `possible_intersection` is claimed to return 3:
an `Overlap` classification between different polygons with distinct left
endpoints. -/
def ret3Spec (intersect : Pt → Pt → Pt → Pt → LineIntersection Pt)
    (i1 i2 : Nat) (st : State Pt) : Prop :=
  ∃ se1 o1Id other1 se2 o2Id other2,
    lookupPair st i1 = some (se1, o1Id, other1) ∧
    lookupPair st i2 = some (se2, o2Id, other2) ∧
    (∃ p q, intersect se1.point other1.point se2.point other2.point = LineIntersection.Overlap p q) ∧
    ¬ se1.isSubject = se2.isSubject ∧ ¬ se1.point = se2.point

/-- Geometry-predicate stub reporting a collinear overlap; the reported
coordinates are irrelevant to the resolver. -/
def constOverlap (p q : Int × Int) :
    (Int × Int) → (Int × Int) → (Int × Int) → (Int × Int) → LineIntersection (Int × Int) :=
  fun _ _ _ _ => LineIntersection.Overlap p q

/-- Geometry-predicate stub reporting a point intersection. -/
def constPoint (p : Int × Int) :
    (Int × Int) → (Int × Int) → (Int × Int) → (Int × Int) → LineIntersection (Int × Int) :=
  fun _ _ _ _ => LineIntersection.Point p

/-- Full-containment overlap instance: subject edge A spans 0-10 on the
x-axis, clip edge B spans 2-5 inside it, no shared endpoint. -/
def stContain : State (Int × Int) := twoEdgeState (0, 0) (10, 0) (2, 0) (5, 0) false false

/-- Partial-overlap instance: subject edge spans 0-5 on the x-axis, clip
edge spans 2-8, overlap range 2-5 shared by both with neither containing
the other. -/
def stPartial : State (Int × Int) := twoEdgeState (0, 0) (5, 0) (2, 0) (8, 0) false false

/-- Bound on the externally visible effects of a resolver run started in
`st` and ending in `stF`, charged to at most `n` splitter calls: the queue
only grows, by at most two entries per splitter call; the splitter log
grows by at most `n` records; the edge-type of every pre-existing event
other than the two events passed to the resolver is unchanged; and no event
is ever removed from the store. -/
def EffectBound (i1 i2 n : Nat) (st stF : State Pt) : Prop :=
  (∃ tl, stF.queue = st.queue ++ tl ∧ tl.length ≤ 2 * n) ∧
  stF.log.length ≤ st.log.length + n ∧
  (∀ j, j < st.events.length → j ≠ i1 → j ≠ i2 → edgeTypeAt stF j = edgeTypeAt st j) ∧
  st.events.length ≤ stF.events.length

/-- Interior-crossing instance: subject edge spans 0-4 on the x-axis, clip
edge is vertical through (2, 0); they cross at the interior point (2, 0). -/
def stCross : State (Int × Int) := twoEdgeState (0, 0) (4, 0) (2, -2) (2, 2) false false

/-- Shared-left-endpoint overlap instance: subject edge spans 0-10 on the
x-axis, clip edge spans 0-5; both start at the origin. -/
def stLeftCo : State (Int × Int) := twoEdgeState (0, 0) (10, 0) (0, 0) (5, 0) false false

/-- Geometry-predicate stub reporting no intersection. -/
def constNone :
    (Int × Int) → (Int × Int) → (Int × Int) → (Int × Int) → LineIntersection (Int × Int) :=
  fun _ _ _ _ => LineIntersection.None

/-! Basic lemmas about the state operations. -/

theorem lookupPair_inv {st : State Pt} {i : Nat} {e : SweepEvent Pt} {j : Nat} {o : SweepEvent Pt}
    (h : lookupPair st i = some (e, j, o)) :
    st.events[i]? = some e ∧ e.otherEvent = some j ∧ st.events[j]? = some o := by
  unfold lookupPair at h
  split at h
  · cases h
  next e₀ he =>
    split at h
    · cases h
    next j₀ hj =>
      split at h
      · cases h
      next o₀ ho =>
        cases h
        exact ⟨he, hj, ho⟩

theorem pi_none_left (intersect : Pt → Pt → Pt → Pt → LineIntersection Pt)
    (ptLt : Pt → Pt → Bool) (i1 i2 : Nat) (st : State Pt)
    (h : lookupPair st i1 = none) :
    possible_intersection intersect ptLt i1 i2 st = (0, st) := by
  unfold possible_intersection
  rw [h]

theorem pi_none_right (intersect : Pt → Pt → Pt → Pt → LineIntersection Pt)
    (ptLt : Pt → Pt → Bool) (i1 i2 : Nat) (st : State Pt)
    (h : lookupPair st i2 = none) :
    possible_intersection intersect ptLt i1 i2 st = (0, st) := by
  unfold possible_intersection
  rw [h]
  cases hl : lookupPair st i1 with
  | none => rfl
  | some x =>
    rcases x with ⟨a, b, c⟩
    rfl

theorem setEdgeType_queue (st : State Pt) (i : Nat) (t : EdgeType) :
    (setEdgeType st i t).queue = st.queue := by
  unfold setEdgeType
  cases h : st.events[i]? <;> rfl

theorem setEdgeType_log (st : State Pt) (i : Nat) (t : EdgeType) :
    (setEdgeType st i t).log = st.log := by
  unfold setEdgeType
  cases h : st.events[i]? <;> rfl

theorem setEdgeType_length (st : State Pt) (i : Nat) (t : EdgeType) :
    (setEdgeType st i t).events.length = st.events.length := by
  unfold setEdgeType
  cases h : st.events[i]? <;> simp

theorem setEdgeType_get_ne (st : State Pt) (i j : Nat) (t : EdgeType) (h : i ≠ j) :
    (setEdgeType st i t).events[j]? = st.events[j]? := by
  unfold setEdgeType
  cases he : st.events[i]?
  · rfl
  · exact List.getElem?_set_ne h

theorem setEdgeType_get_self (st : State Pt) (i : Nat) (t : EdgeType)
    (e : SweepEvent Pt) (h : st.events[i]? = some e) :
    (setEdgeType st i t).events[i]? = some { e with edgeType := t } := by
  unfold setEdgeType
  rw [h]
  have hi : i < st.events.length := (List.getElem?_eq_some.mp h).1
  simp [List.getElem?_set_self', hi]

theorem divide_queue (seId : Nat) (p : Pt) (st : State Pt) :
    ∃ tl, (divide_segment seId p st).queue = st.queue ++ tl ∧ tl.length ≤ 2 := by
  unfold divide_segment
  split
  · exact ⟨[], by simp⟩
  next se h1 =>
    split
    · exact ⟨[], by simp⟩
    next oId h2 =>
      split
      · exact ⟨[], by simp⟩
      next o h3 =>
        exact ⟨[st.events.length + 1, st.events.length], by simp⟩

theorem divide_log_len (seId : Nat) (p : Pt) (st : State Pt) :
    (divide_segment seId p st).log.length ≤ st.log.length + 1 := by
  unfold divide_segment
  split
  · simp
  next se h1 =>
    split
    · simp
    next oId h2 =>
      split
      · simp
      next o h3 =>
        simp

theorem divide_length_ge (seId : Nat) (p : Pt) (st : State Pt) :
    st.events.length ≤ (divide_segment seId p st).events.length := by
  unfold divide_segment
  split
  · simp
  next se h1 =>
    split
    · simp
    next oId h2 =>
      split
      · simp
      next o h3 =>
        simp

theorem divide_edgeTypeAt (seId : Nat) (p : Pt) (st : State Pt) (j : Nat)
    (hj : j < st.events.length) :
    edgeTypeAt (divide_segment seId p st) j = edgeTypeAt st j := by
  unfold divide_segment edgeTypeAt
  split
  · rfl
  next se h1 =>
    split
    · rfl
    next otherId h2 =>
      split
      · rfl
      next other h3 =>
        simp only
        rw [List.getElem?_append_left (by simpa using hj)]
        by_cases hjo : j = otherId
        · subst hjo
          have hlt : j < (st.events.set seId { se with otherEvent := some st.events.length }).length := by
            simpa using hj
          simp only [List.getElem?_set_self', hlt, if_pos]
          by_cases hjs : j = seId
          · subst hjs
            rw [h1] at h3
            cases h3
            simp [List.getElem?_set_self', hj, h1]
          · rw [List.getElem?_set_ne (fun h => hjs h.symm), h3]
            simp
        · rw [List.getElem?_set_ne (fun h => hjo h.symm)]
          by_cases hjs : j = seId
          · subst hjs
            simp [List.getElem?_set_self', hj, h1]
          · rw [List.getElem?_set_ne (fun h => hjs h.symm)]

/-- Full description of a successful splitter call on a well-formed edge:
the left event is re-pointed at the fresh right event `r` (index `n`), the
complementary event at the fresh left event `l` (index `n + 1`), the fresh
events span the two halves, every other slot is untouched, and the queue
and log grow by exactly the expected entries. -/
theorem divide_spec (seId oId : Nat) (p : Pt) (st : State Pt)
    (se o : SweepEvent Pt)
    (hse : st.events[seId]? = some se) (hoth : se.otherEvent = some oId)
    (ho : st.events[oId]? = some o) (hne : seId ≠ oId) :
    (divide_segment seId p st).events[seId]? = some { se with otherEvent := some st.events.length } ∧
    (divide_segment seId p st).events[oId]? = some { o with otherEvent := some (st.events.length + 1) } ∧
    (divide_segment seId p st).events[st.events.length]? =
      some { point := p, isLeft := false, otherEvent := some seId,
             isSubject := se.isSubject, edgeType := EdgeType.Normal, inOut := false } ∧
    (divide_segment seId p st).events[st.events.length + 1]? =
      some { point := p, isLeft := true, otherEvent := some oId,
             isSubject := se.isSubject, edgeType := EdgeType.Normal, inOut := false } ∧
    (∀ j, j ≠ seId → j ≠ oId → j < st.events.length →
      (divide_segment seId p st).events[j]? = st.events[j]?) ∧
    (divide_segment seId p st).events.length = st.events.length + 2 ∧
    (divide_segment seId p st).queue = st.queue ++ [st.events.length + 1, st.events.length] ∧
    (divide_segment seId p st).log = st.log ++
      [{ seId := seId, leftPoint := se.point, rightPoint := o.point, splitPoint := p }] := by
  have hseLt : seId < st.events.length := (List.getElem?_eq_some.mp hse).1
  have hoLt : oId < st.events.length := (List.getElem?_eq_some.mp ho).1
  simp only [divide_segment, hse, hoth, ho]
  refine ⟨?_, ?_, ?_, ?_, ?_, ?_, ?_, ?_⟩
  · rw [List.getElem?_append_left (by simpa using hseLt),
      List.getElem?_set_ne hne.symm]
    simp [List.getElem?_set_self', hseLt, hse]
  · rw [List.getElem?_append_left (by simpa using hoLt)]
    have hlt : oId < (st.events.set seId { se with otherEvent := some st.events.length }).length := by
      simpa using hoLt
    simp [List.getElem?_set_self', hlt, List.getElem?_set_ne hne, ho]
  · rw [List.getElem?_append_right (by simp)]
    simp
  · rw [List.getElem?_append_right (by simp)]
    have h1 : st.events.length + 1 -
        ((st.events.set seId { se with otherEvent := some st.events.length }).set oId
          { o with otherEvent := some (st.events.length + 1) }).length = 1 := by
      simp
    rw [h1]
    rfl
  · intro j hjs hjo hjlt
    rw [List.getElem?_append_left (by simpa using hjlt),
      List.getElem?_set_ne (fun h => hjo h.symm), List.getElem?_set_ne (fun h => hjs h.symm)]
  · simp
  · trivial
  · trivial

/-- Action-code shape of the different-polygon overlap branch: code 2
exactly on a shared left endpoint, code 3 otherwise. -/
theorem overlapResolve_fst (ptLt : Pt → Pt → Bool) (se1Id o1Id se2Id o2Id : Nat)
    (se1 other1 se2 other2 : SweepEvent Pt) (st : State Pt) :
    (overlapResolve ptLt se1Id o1Id se2Id o2Id se1 other1 se2 other2 st).1 =
      if se1.point = se2.point then 2 else 3 := by
  simp only [overlapResolve]
  split_ifs <;> rfl

theorem ret0Spec_payload {intersect : Pt → Pt → Pt → Pt → LineIntersection Pt}
    {i1 i2 : Nat} {st : State Pt} {se1 other1 se2 other2 : SweepEvent Pt} {o1Id o2Id : Nat}
    (h1 : lookupPair st i1 = some (se1, o1Id, other1))
    (h2 : lookupPair st i2 = some (se2, o2Id, other2))
    (h : ret0Spec intersect i1 i2 st) :
    intersect se1.point other1.point se2.point other2.point = LineIntersection.None ∨
    (∃ p, intersect se1.point other1.point se2.point other2.point = LineIntersection.Point p ∧
      se1.point = se2.point ∧ other1.point = other2.point) ∨
    (∃ p q, intersect se1.point other1.point se2.point other2.point = LineIntersection.Overlap p q ∧
      se1.isSubject = se2.isSubject) := by
  rcases h with hnone | hnone | ⟨a, b, c, d, e, f, ha, hb, hpay⟩
  · rw [h1] at hnone
    cases hnone
  · rw [h2] at hnone
    cases hnone
  · rw [h1] at ha
    rw [h2] at hb
    obtain ⟨ea, eb, ec⟩ : se1 = a ∧ o1Id = b ∧ other1 = c := by simpa using ha
    obtain ⟨ed, ee, ef⟩ : se2 = d ∧ o2Id = e ∧ other2 = f := by simpa using hb
    subst ea
    subst ec
    subst ed
    subst ef
    exact hpay

theorem ret1Spec_payload {intersect : Pt → Pt → Pt → Pt → LineIntersection Pt}
    {i1 i2 : Nat} {st : State Pt} {se1 other1 se2 other2 : SweepEvent Pt} {o1Id o2Id : Nat}
    (h1 : lookupPair st i1 = some (se1, o1Id, other1))
    (h2 : lookupPair st i2 = some (se2, o2Id, other2))
    (h : ret1Spec intersect i1 i2 st) :
    ∃ p, intersect se1.point other1.point se2.point other2.point = LineIntersection.Point p ∧
      ¬ (se1.point = se2.point ∧ other1.point = other2.point) := by
  rcases h with ⟨a, b, c, d, e, f, ha, hb, hpay⟩
  rw [h1] at ha
  rw [h2] at hb
  obtain ⟨ea, eb, ec⟩ : se1 = a ∧ o1Id = b ∧ other1 = c := by simpa using ha
  obtain ⟨ed, ee, ef⟩ : se2 = d ∧ o2Id = e ∧ other2 = f := by simpa using hb
  subst ea
  subst ec
  subst ed
  subst ef
  exact hpay

theorem ret2Spec_payload {intersect : Pt → Pt → Pt → Pt → LineIntersection Pt}
    {i1 i2 : Nat} {st : State Pt} {se1 other1 se2 other2 : SweepEvent Pt} {o1Id o2Id : Nat}
    (h1 : lookupPair st i1 = some (se1, o1Id, other1))
    (h2 : lookupPair st i2 = some (se2, o2Id, other2))
    (h : ret2Spec intersect i1 i2 st) :
    (∃ p q, intersect se1.point other1.point se2.point other2.point = LineIntersection.Overlap p q) ∧
      ¬ se1.isSubject = se2.isSubject ∧ se1.point = se2.point := by
  rcases h with ⟨a, b, c, d, e, f, ha, hb, hpay⟩
  rw [h1] at ha
  rw [h2] at hb
  obtain ⟨ea, eb, ec⟩ : se1 = a ∧ o1Id = b ∧ other1 = c := by simpa using ha
  obtain ⟨ed, ee, ef⟩ : se2 = d ∧ o2Id = e ∧ other2 = f := by simpa using hb
  subst ea
  subst ec
  subst ed
  subst ef
  exact hpay

theorem ret3Spec_payload {intersect : Pt → Pt → Pt → Pt → LineIntersection Pt}
    {i1 i2 : Nat} {st : State Pt} {se1 other1 se2 other2 : SweepEvent Pt} {o1Id o2Id : Nat}
    (h1 : lookupPair st i1 = some (se1, o1Id, other1))
    (h2 : lookupPair st i2 = some (se2, o2Id, other2))
    (h : ret3Spec intersect i1 i2 st) :
    (∃ p q, intersect se1.point other1.point se2.point other2.point = LineIntersection.Overlap p q) ∧
      ¬ se1.isSubject = se2.isSubject ∧ ¬ se1.point = se2.point := by
  rcases h with ⟨a, b, c, d, e, f, ha, hb, hpay⟩
  rw [h1] at ha
  rw [h2] at hb
  obtain ⟨ea, eb, ec⟩ : se1 = a ∧ o1Id = b ∧ other1 = c := by simpa using ha
  obtain ⟨ed, ee, ef⟩ : se2 = d ∧ o2Id = e ∧ other2 = f := by simpa using hb
  subst ea
  subst ec
  subst ed
  subst ef
  exact hpay

/-- C1: `possible_intersection` always returns one of the action codes
0, 1, 2, 3; it returns 0 exactly when one of the events lacks a resolvable
complementary event, the predicate classifies the edges as `None`, as a
`Point` with both endpoint pairs coincident, or as an `Overlap` between
edges of the same polygon; every return-0 case leaves the state (event
store, queue and splitter log) untouched; and codes 1, 2, 3 are returned
exactly for a point intersection not coincident at both endpoint pairs, a
left-coincident different-polygon overlap, and a non-left-coincident
different-polygon overlap, respectively. -/
theorem C1_action_codes (intersect : Pt → Pt → Pt → Pt → LineIntersection Pt)
    (ptLt : Pt → Pt → Bool) (i1 i2 : Nat) (st : State Pt) :
    ((possible_intersection intersect ptLt i1 i2 st).1 = 0 ∨
     (possible_intersection intersect ptLt i1 i2 st).1 = 1 ∨
     (possible_intersection intersect ptLt i1 i2 st).1 = 2 ∨
     (possible_intersection intersect ptLt i1 i2 st).1 = 3) ∧
    ((possible_intersection intersect ptLt i1 i2 st).1 = 0 →
      (possible_intersection intersect ptLt i1 i2 st).2 = st) ∧
    ((possible_intersection intersect ptLt i1 i2 st).1 = 0 ↔ ret0Spec intersect i1 i2 st) ∧
    ((possible_intersection intersect ptLt i1 i2 st).1 = 1 ↔ ret1Spec intersect i1 i2 st) ∧
    ((possible_intersection intersect ptLt i1 i2 st).1 = 2 ↔ ret2Spec intersect i1 i2 st) ∧
    ((possible_intersection intersect ptLt i1 i2 st).1 = 3 ↔ ret3Spec intersect i1 i2 st) := by
  rcases h1 : lookupPair st i1 with _ | ⟨se1, o1Id, other1⟩
  · rw [pi_none_left intersect ptLt i1 i2 st h1]
    refine ⟨Or.inl rfl, fun _ => rfl, iff_of_true rfl (Or.inl h1), ?_, ?_, ?_⟩
    all_goals
      refine iff_of_false (by simp) ?_
      rintro ⟨a, b, c, d, e, f, ha, hb, hpay⟩
      rw [h1] at ha
      cases ha
  · rcases h2 : lookupPair st i2 with _ | ⟨se2, o2Id, other2⟩
    · rw [pi_none_right intersect ptLt i1 i2 st h2]
      refine ⟨Or.inl rfl, fun _ => rfl, iff_of_true rfl (Or.inr (Or.inl h2)), ?_, ?_, ?_⟩
      all_goals
        refine iff_of_false (by simp) ?_
        rintro ⟨a, b, c, d, e, f, ha, hb, hpay⟩
        rw [h2] at hb
        cases hb
    · rcases h3 : intersect se1.point other1.point se2.point other2.point with _ | p | ⟨p, q⟩
      · have hred : possible_intersection intersect ptLt i1 i2 st = (0, st) := by
          simp only [possible_intersection, h1, h2, h3]
        rw [hred]
        refine ⟨Or.inl rfl, fun _ => rfl,
          iff_of_true rfl
            (Or.inr (Or.inr ⟨se1, o1Id, other1, se2, o2Id, other2, h1, h2, Or.inl h3⟩)), ?_, ?_, ?_⟩
        · refine iff_of_false (by simp) ?_
          intro h
          obtain ⟨p0, hp, -⟩ := ret1Spec_payload h1 h2 h
          rw [h3] at hp
          cases hp
        · refine iff_of_false (by simp) ?_
          intro h
          obtain ⟨⟨p0, q0, hov⟩, -, -⟩ := ret2Spec_payload h1 h2 h
          rw [h3] at hov
          cases hov
        · refine iff_of_false (by simp) ?_
          intro h
          obtain ⟨⟨p0, q0, hov⟩, -, -⟩ := ret3Spec_payload h1 h2 h
          rw [h3] at hov
          cases hov
      · by_cases hc : se1.point = se2.point ∧ other1.point = other2.point
        · have hred : possible_intersection intersect ptLt i1 i2 st = (0, st) := by
            simp only [possible_intersection, h1, h2, h3]
            rw [if_pos hc]
          rw [hred]
          refine ⟨Or.inl rfl, fun _ => rfl,
            iff_of_true rfl
              (Or.inr (Or.inr ⟨se1, o1Id, other1, se2, o2Id, other2, h1, h2,
                Or.inr (Or.inl ⟨p, h3, hc.1, hc.2⟩)⟩)), ?_, ?_, ?_⟩
          · refine iff_of_false (by simp) ?_
            intro h
            obtain ⟨p0, hp, hnc⟩ := ret1Spec_payload h1 h2 h
            exact hnc hc
          · refine iff_of_false (by simp) ?_
            intro h
            obtain ⟨⟨p0, q0, hov⟩, -, -⟩ := ret2Spec_payload h1 h2 h
            rw [h3] at hov
            cases hov
          · refine iff_of_false (by simp) ?_
            intro h
            obtain ⟨⟨p0, q0, hov⟩, -, -⟩ := ret3Spec_payload h1 h2 h
            rw [h3] at hov
            cases hov
        · have hred : (possible_intersection intersect ptLt i1 i2 st).1 = 1 := by
            simp only [possible_intersection, h1, h2, h3]
            rw [if_neg hc]
          refine ⟨Or.inr (Or.inl hred), ?_, ?_, ?_, ?_, ?_⟩
          · intro h0
            rw [hred] at h0
            exact absurd h0 (by decide)
          · rw [hred]
            refine iff_of_false (by simp) ?_
            intro h
            rcases ret0Spec_payload h1 h2 h with hnone | ⟨p0, hp, hc1, hc2⟩ | ⟨p0, q0, hov, -⟩
            · rw [h3] at hnone
              cases hnone
            · exact hc ⟨hc1, hc2⟩
            · rw [h3] at hov
              cases hov
          · rw [hred]
            exact iff_of_true rfl ⟨se1, o1Id, other1, se2, o2Id, other2, h1, h2, p, h3, hc⟩
          · rw [hred]
            refine iff_of_false (by simp) ?_
            intro h
            obtain ⟨⟨p0, q0, hov⟩, -, -⟩ := ret2Spec_payload h1 h2 h
            rw [h3] at hov
            cases hov
          · rw [hred]
            refine iff_of_false (by simp) ?_
            intro h
            obtain ⟨⟨p0, q0, hov⟩, -, -⟩ := ret3Spec_payload h1 h2 h
            rw [h3] at hov
            cases hov
      · by_cases hs : se1.isSubject = se2.isSubject
        · have hred : possible_intersection intersect ptLt i1 i2 st = (0, st) := by
            simp only [possible_intersection, h1, h2, h3]
            rw [if_pos hs]
          rw [hred]
          refine ⟨Or.inl rfl, fun _ => rfl,
            iff_of_true rfl
              (Or.inr (Or.inr ⟨se1, o1Id, other1, se2, o2Id, other2, h1, h2,
                Or.inr (Or.inr ⟨p, q, h3, hs⟩)⟩)), ?_, ?_, ?_⟩
          · refine iff_of_false (by simp) ?_
            intro h
            obtain ⟨p0, hp, -⟩ := ret1Spec_payload h1 h2 h
            rw [h3] at hp
            cases hp
          · refine iff_of_false (by simp) ?_
            intro h
            obtain ⟨-, hns, -⟩ := ret2Spec_payload h1 h2 h
            exact hns hs
          · refine iff_of_false (by simp) ?_
            intro h
            obtain ⟨-, hns, -⟩ := ret3Spec_payload h1 h2 h
            exact hns hs
        · have hov : possible_intersection intersect ptLt i1 i2 st =
              overlapResolve ptLt i1 o1Id i2 o2Id se1 other1 se2 other2 st := by
            simp only [possible_intersection, h1, h2, h3]
            rw [if_neg hs]
          by_cases hl : se1.point = se2.point
          · have hred : (possible_intersection intersect ptLt i1 i2 st).1 = 2 := by
              rw [hov, overlapResolve_fst, if_pos hl]
            refine ⟨Or.inr (Or.inr (Or.inl hred)), ?_, ?_, ?_, ?_, ?_⟩
            · intro h0
              rw [hred] at h0
              exact absurd h0 (by decide)
            · rw [hred]
              refine iff_of_false (by simp) ?_
              intro h
              rcases ret0Spec_payload h1 h2 h with hnone | ⟨p0, hp, -, -⟩ | ⟨p0, q0, hov0, hsub⟩
              · rw [h3] at hnone
                cases hnone
              · rw [h3] at hp
                cases hp
              · exact hs hsub
            · rw [hred]
              refine iff_of_false (by simp) ?_
              intro h
              obtain ⟨p0, hp, -⟩ := ret1Spec_payload h1 h2 h
              rw [h3] at hp
              cases hp
            · rw [hred]
              exact iff_of_true rfl
                ⟨se1, o1Id, other1, se2, o2Id, other2, h1, h2, ⟨p, q, h3⟩, hs, hl⟩
            · rw [hred]
              refine iff_of_false (by simp) ?_
              intro h
              obtain ⟨-, -, hnl⟩ := ret3Spec_payload h1 h2 h
              exact hnl hl
          · have hred : (possible_intersection intersect ptLt i1 i2 st).1 = 3 := by
              rw [hov, overlapResolve_fst, if_neg hl]
            refine ⟨Or.inr (Or.inr (Or.inr hred)), ?_, ?_, ?_, ?_, ?_⟩
            · intro h0
              rw [hred] at h0
              exact absurd h0 (by decide)
            · rw [hred]
              refine iff_of_false (by simp) ?_
              intro h
              rcases ret0Spec_payload h1 h2 h with hnone | ⟨p0, hp, -, -⟩ | ⟨p0, q0, hov0, hsub⟩
              · rw [h3] at hnone
                cases hnone
              · rw [h3] at hp
                cases hp
              · exact hs hsub
            · rw [hred]
              refine iff_of_false (by simp) ?_
              intro h
              obtain ⟨p0, hp, -⟩ := ret1Spec_payload h1 h2 h
              rw [h3] at hp
              cases hp
            · rw [hred]
              refine iff_of_false (by simp) ?_
              intro h
              obtain ⟨-, -, hl0⟩ := ret2Spec_payload h1 h2 h
              exact hl hl0
            · rw [hred]
              exact iff_of_true rfl
                ⟨se1, o1Id, other1, se2, o2Id, other2, h1, h2, ⟨p, q, h3⟩, hs, hl⟩


theorem effectBound_rfl (i1 i2 n : Nat) (st : State Pt) : EffectBound i1 i2 n st st :=
  ⟨⟨[], by simp, by simp⟩, by omega, fun _ _ _ _ => rfl, le_refl _⟩

theorem effectBound_mono {i1 i2 n m : Nat} {st stF : State Pt} (hnm : n ≤ m)
    (h : EffectBound i1 i2 n st stF) : EffectBound i1 i2 m st stF := by
  obtain ⟨⟨tl, hq, htl⟩, hlog, het, hev⟩ := h
  exact ⟨⟨tl, hq, by omega⟩, by omega, het, hev⟩

theorem effectBound_divide {i1 i2 n : Nat} {st stM : State Pt} (s : Nat) (p : Pt)
    (h : EffectBound i1 i2 n st stM) :
    EffectBound i1 i2 (n + 1) st (divide_segment s p stM) := by
  obtain ⟨⟨tl, hq, htl⟩, hlog, het, hev⟩ := h
  obtain ⟨tl2, hq2, htl2⟩ := divide_queue s p stM
  refine ⟨⟨tl ++ tl2, ?_, ?_⟩, ?_, ?_, ?_⟩
  · rw [hq2, hq, List.append_assoc]
  · simp only [List.length_append]
    omega
  · have := divide_log_len s p stM
    omega
  · intro j hj hj1 hj2
    rw [divide_edgeTypeAt s p stM j (lt_of_lt_of_le hj hev), het j hj hj1 hj2]
  · exact le_trans hev (divide_length_ge s p stM)

theorem effectBound_set {i1 i2 n : Nat} {st stM : State Pt} (i : Nat) (t : EdgeType)
    (hi : i = i1 ∨ i = i2) (h : EffectBound i1 i2 n st stM) :
    EffectBound i1 i2 n st (setEdgeType stM i t) := by
  obtain ⟨⟨tl, hq, htl⟩, hlog, het, hev⟩ := h
  refine ⟨⟨tl, ?_, htl⟩, ?_, ?_, ?_⟩
  · rw [setEdgeType_queue, hq]
  · rw [setEdgeType_log]
    exact hlog
  · intro j hj hj1 hj2
    have hji : j ≠ i := by
      rcases hi with hi | hi <;> simp [hi, hj1, hj2]
    rw [edgeTypeAt, setEdgeType_get_ne stM i j t (fun hh => hji hh.symm)]
    exact het j hj hj1 hj2
  · rw [setEdgeType_length]
    exact hev

theorem effectBound_ite_divide {i1 i2 n : Nat} {st stM : State Pt} {P : Prop}
    [Decidable P] (s : Nat) (p : Pt) (h : EffectBound i1 i2 n st stM) :
    EffectBound i1 i2 (n + 1) st (if P then divide_segment s p stM else stM) := by
  split
  · exact effectBound_divide s p h
  · exact effectBound_mono (by omega) h

theorem overlapResolve_effectBound (ptLt : Pt → Pt → Bool) (i1 o1Id i2 o2Id : Nat)
    (se1 other1 se2 other2 : SweepEvent Pt) (st : State Pt) :
    EffectBound i1 i2 2 st (overlapResolve ptLt i1 o1Id i2 o2Id se1 other1 se2 other2 st).2 := by
  simp only [overlapResolve]
  by_cases hl : se1.point = se2.point
  · rw [if_pos hl]
    dsimp only
    by_cases hio : se1.inOut = se2.inOut
    · rw [if_pos hio]
      exact effectBound_ite_divide _ _
        (effectBound_set _ _ (Or.inl rfl) (effectBound_set _ _ (Or.inr rfl) (effectBound_rfl i1 i2 1 st)))
    · rw [if_neg hio]
      exact effectBound_ite_divide _ _
        (effectBound_set _ _ (Or.inl rfl) (effectBound_set _ _ (Or.inr rfl) (effectBound_rfl i1 i2 1 st)))
  · rw [if_neg hl]
    by_cases hr : other1.point = other2.point
    · rw [if_pos hr]
      dsimp only
      exact effectBound_mono (by omega) (effectBound_divide _ _ (effectBound_rfl i1 i2 0 st))
    · rw [if_neg hr]
      split
      · dsimp only
        exact effectBound_divide _ _ (effectBound_divide _ _ (effectBound_rfl i1 i2 0 st))
      · dsimp only
        exact effectBound_divide _ _ (effectBound_divide _ _ (effectBound_rfl i1 i2 0 st))

theorem pi_effectBound (intersect : Pt → Pt → Pt → Pt → LineIntersection Pt)
    (ptLt : Pt → Pt → Bool) (i1 i2 : Nat) (st : State Pt) :
    EffectBound i1 i2 2 st (possible_intersection intersect ptLt i1 i2 st).2 := by
  rcases h1 : lookupPair st i1 with _ | ⟨se1, o1Id, other1⟩
  · rw [pi_none_left intersect ptLt i1 i2 st h1]
    exact effectBound_rfl i1 i2 2 st
  · rcases h2 : lookupPair st i2 with _ | ⟨se2, o2Id, other2⟩
    · rw [pi_none_right intersect ptLt i1 i2 st h2]
      exact effectBound_rfl i1 i2 2 st
    · rcases h3 : intersect se1.point other1.point se2.point other2.point with _ | p | ⟨p, q⟩
      · have hred : possible_intersection intersect ptLt i1 i2 st = (0, st) := by
          simp only [possible_intersection, h1, h2, h3]
        rw [hred]
        exact effectBound_rfl i1 i2 2 st
      · by_cases hc : se1.point = se2.point ∧ other1.point = other2.point
        · have hred : possible_intersection intersect ptLt i1 i2 st = (0, st) := by
            simp only [possible_intersection, h1, h2, h3]
            rw [if_pos hc]
          rw [hred]
          exact effectBound_rfl i1 i2 2 st
        · have hred : (possible_intersection intersect ptLt i1 i2 st).2 =
              (if ¬ se2.point = p ∧ ¬ other2.point = p then
                divide_segment i2 p
                  (if ¬ se1.point = p ∧ ¬ other1.point = p then divide_segment i1 p st else st)
               else
                (if ¬ se1.point = p ∧ ¬ other1.point = p then divide_segment i1 p st else st)) := by
            simp only [possible_intersection, h1, h2, h3]
            rw [if_neg hc]
          rw [hred]
          have hst1 : EffectBound i1 i2 1 st
              (if ¬ se1.point = p ∧ ¬ other1.point = p then divide_segment i1 p st else st) := by
            by_cases hc1 : ¬ se1.point = p ∧ ¬ other1.point = p
            · rw [if_pos hc1]
              exact effectBound_divide _ _ (effectBound_rfl i1 i2 0 st)
            · rw [if_neg hc1]
              exact effectBound_rfl i1 i2 1 st
          by_cases hc2 : ¬ se2.point = p ∧ ¬ other2.point = p
          · rw [if_pos hc2]
            exact effectBound_divide _ _ hst1
          · rw [if_neg hc2]
            exact effectBound_mono (by omega) hst1
      · by_cases hs : se1.isSubject = se2.isSubject
        · have hred : possible_intersection intersect ptLt i1 i2 st = (0, st) := by
            simp only [possible_intersection, h1, h2, h3]
            rw [if_pos hs]
          rw [hred]
          exact effectBound_rfl i1 i2 2 st
        · have hred : possible_intersection intersect ptLt i1 i2 st =
              overlapResolve ptLt i1 o1Id i2 o2Id se1 other1 se2 other2 st := by
            simp only [possible_intersection, h1, h2, h3]
            rw [if_neg hs]
          rw [hred]
          exact overlapResolve_effectBound ptLt i1 o1Id i2 o2Id se1 other1 se2 other2 st


/-- C7: every invocation of `possible_intersection` calls the splitter at
most twice, so the queue receives at most four new entries and only grows
(the original queue is a prefix of the final queue — strictly append-only);
the edge-type/classification field of every pre-existing event other than
the two events passed in is unchanged; and no event is ever removed from
the store. -/
theorem C7_frame_effects (intersect : Pt → Pt → Pt → Pt → LineIntersection Pt)
    (ptLt : Pt → Pt → Bool) (i1 i2 : Nat) (st : State Pt) :
    (∃ tl, (possible_intersection intersect ptLt i1 i2 st).2.queue = st.queue ++ tl ∧
      tl.length ≤ 4) ∧
    (possible_intersection intersect ptLt i1 i2 st).2.log.length ≤ st.log.length + 2 ∧
    (∀ j, j < st.events.length → j ≠ i1 → j ≠ i2 →
      edgeTypeAt (possible_intersection intersect ptLt i1 i2 st).2 j = edgeTypeAt st j) ∧
    st.events.length ≤ (possible_intersection intersect ptLt i1 i2 st).2.events.length := by
  obtain ⟨⟨tl, hq, htl⟩, hlog, het, hev⟩ := pi_effectBound intersect ptLt i1 i2 st
  exact ⟨⟨tl, hq, by omega⟩, hlog, het, hev⟩

theorem C7_frame_effects_witness :
    (1 : Nat) < stContain.events.length ∧ (1 : Nat) ≠ 0 ∧ (1 : Nat) ≠ 2 ∧
    edgeTypeAt (possible_intersection (constOverlap (0, 0) (0, 0)) lexLt 0 2 stContain).2 1 =
      edgeTypeAt stContain 1 :=
  ⟨by decide, by decide, by decide,
    (C7_frame_effects (constOverlap (0, 0) (0, 0)) lexLt 0 2 stContain).2.2.1 1
      (by decide) (by decide) (by decide)⟩


theorem spanOf_eq {st : State Pt} {i j : Nat} {e o : SweepEvent Pt}
    (hse : st.events[i]? = some e) (hoth : e.otherEvent = some j)
    (ho : st.events[j]? = some o) :
    spanOf st i = some (e.point, o.point) := by
  simp only [spanOf, lookupPair, hse, hoth, ho]

/-- C2: on a `Point inter` classification (not coincident at both endpoint
pairs), `possible_intersection` invokes the splitter exactly on those edges
whose both endpoints differ from `inter` (so zero, one, or two splits, and
an edge already ending at `inter` is not split), returns 1, and the
resulting sub-edges reassemble the two original edges exactly: a split edge
becomes the spans `(left, inter)` and `(inter, right)`, an unsplit edge
keeps its original span. -/
theorem C2_point_splits (intersect : Pt → Pt → Pt → Pt → LineIntersection Pt)
    (ptLt : Pt → Pt → Bool) (i1 i2 o1Id o2Id : Nat) (st : State Pt)
    (se1 other1 se2 other2 : SweepEvent Pt) (inter : Pt)
    (h1 : lookupPair st i1 = some (se1, o1Id, other1))
    (h2 : lookupPair st i2 = some (se2, o2Id, other2))
    (h3 : intersect se1.point other1.point se2.point other2.point = LineIntersection.Point inter)
    (hc : ¬ (se1.point = se2.point ∧ other1.point = other2.point))
    (hne12 : i1 ≠ i2) (hne1o1 : i1 ≠ o1Id) (hne1o2 : i1 ≠ o2Id)
    (hneo12 : o1Id ≠ i2) (hneo1o2 : o1Id ≠ o2Id) (hne2o2 : i2 ≠ o2Id) :
    (possible_intersection intersect ptLt i1 i2 st).1 = 1 ∧
    (possible_intersection intersect ptLt i1 i2 st).2.log = st.log ++
      (if ¬ se1.point = inter ∧ ¬ other1.point = inter then
        [{ seId := i1, leftPoint := se1.point, rightPoint := other1.point, splitPoint := inter }]
       else []) ++
      (if ¬ se2.point = inter ∧ ¬ other2.point = inter then
        [{ seId := i2, leftPoint := se2.point, rightPoint := other2.point, splitPoint := inter }]
       else []) ∧
    ((¬ se1.point = inter ∧ ¬ other1.point = inter) →
      spanOf (possible_intersection intersect ptLt i1 i2 st).2 i1 = some (se1.point, inter) ∧
      spanOf (possible_intersection intersect ptLt i1 i2 st).2 (st.events.length + 1) =
        some (inter, other1.point)) ∧
    (¬ (¬ se1.point = inter ∧ ¬ other1.point = inter) →
      spanOf (possible_intersection intersect ptLt i1 i2 st).2 i1 =
        some (se1.point, other1.point)) ∧
    ((¬ se2.point = inter ∧ ¬ other2.point = inter) →
      spanOf (possible_intersection intersect ptLt i1 i2 st).2 i2 = some (se2.point, inter) ∧
      spanOf (possible_intersection intersect ptLt i1 i2 st).2
        ((if ¬ se1.point = inter ∧ ¬ other1.point = inter then st.events.length + 2
          else st.events.length) + 1) = some (inter, other2.point)) ∧
    (¬ (¬ se2.point = inter ∧ ¬ other2.point = inter) →
      spanOf (possible_intersection intersect ptLt i1 i2 st).2 i2 =
        some (se2.point, other2.point)) := by
  obtain ⟨hse1, ho1, hot1⟩ := lookupPair_inv h1
  obtain ⟨hse2, ho2, hot2⟩ := lookupPair_inv h2
  have hlt1 : i1 < st.events.length := (List.getElem?_eq_some.mp hse1).1
  have hlto1 : o1Id < st.events.length := (List.getElem?_eq_some.mp hot1).1
  have hlt2 : i2 < st.events.length := (List.getElem?_eq_some.mp hse2).1
  have hlto2 : o2Id < st.events.length := (List.getElem?_eq_some.mp hot2).1
  have hred : possible_intersection intersect ptLt i1 i2 st =
      (1, if ¬ se2.point = inter ∧ ¬ other2.point = inter then
            divide_segment i2 inter
              (if ¬ se1.point = inter ∧ ¬ other1.point = inter then
                divide_segment i1 inter st else st)
          else
            (if ¬ se1.point = inter ∧ ¬ other1.point = inter then
              divide_segment i1 inter st else st)) := by
    simp only [possible_intersection, h1, h2, h3]
    rw [if_neg hc]
  rw [hred]
  by_cases hns1 : ¬ se1.point = inter ∧ ¬ other1.point = inter
  · obtain ⟨d1se, d1o, d1r, d1l, d1f, d1len, d1q, d1log⟩ :=
      divide_spec i1 o1Id inter st se1 other1 hse1 ho1 hot1 hne1o1
    have hse2b : (divide_segment i1 inter st).events[i2]? = some se2 := by
      rw [d1f i2 hne12.symm hneo12.symm hlt2]
      exact hse2
    have hot2b : (divide_segment i1 inter st).events[o2Id]? = some other2 := by
      rw [d1f o2Id hne1o2.symm hneo1o2.symm hlto2]
      exact hot2
    by_cases hns2 : ¬ se2.point = inter ∧ ¬ other2.point = inter
    · obtain ⟨d2se, d2o, d2r, d2l, d2f, d2len, d2q, d2log⟩ :=
        divide_spec i2 o2Id inter (divide_segment i1 inter st) se2 other2 hse2b ho2 hot2b hne2o2
      simp only [if_pos hns1, if_pos hns2]
      have s1 : (divide_segment i2 inter (divide_segment i1 inter st)).events[i1]? =
          some { se1 with otherEvent := some st.events.length } := by
        rw [d2f i1 hne12 hne1o2 (by rw [d1len]; omega)]
        exact d1se
      have s1r : (divide_segment i2 inter (divide_segment i1 inter st)).events[st.events.length]? =
          some { point := inter, isLeft := false, otherEvent := some i1,
                 isSubject := se1.isSubject, edgeType := EdgeType.Normal, inOut := false } := by
        rw [d2f st.events.length (by omega) (by omega) (by rw [d1len]; omega)]
        exact d1r
      have s2 : (divide_segment i2 inter (divide_segment i1 inter st)).events[st.events.length + 1]? =
          some { point := inter, isLeft := true, otherEvent := some o1Id,
                 isSubject := se1.isSubject, edgeType := EdgeType.Normal, inOut := false } := by
        rw [d2f (st.events.length + 1) (by omega) (by omega) (by rw [d1len]; omega)]
        exact d1l
      have s2o : (divide_segment i2 inter (divide_segment i1 inter st)).events[o1Id]? =
          some { other1 with otherEvent := some (st.events.length + 1) } := by
        rw [d2f o1Id hneo12 hneo1o2 (by rw [d1len]; omega)]
        exact d1o
      refine ⟨trivial, ?_,
        fun _ => ⟨by rw [spanOf_eq s1 rfl s1r], by rw [spanOf_eq s2 rfl s2o]⟩,
        fun h => absurd hns1 h,
        fun _ => ⟨by rw [spanOf_eq d2se rfl d2r],
          by rw [← d1len, spanOf_eq d2l rfl d2o]⟩,
        fun h => absurd hns2 h⟩
      rw [d2log, d1log]
    · simp only [if_pos hns1, if_neg hns2]
      refine ⟨trivial, ?_,
        fun _ => ⟨by rw [spanOf_eq d1se rfl d1r], by rw [spanOf_eq d1l rfl d1o]⟩,
        fun h => absurd hns1 h,
        fun h => absurd h hns2,
        fun _ => by rw [spanOf_eq hse2b ho2 hot2b]⟩
      rw [d1log]
      simp
  · by_cases hns2 : ¬ se2.point = inter ∧ ¬ other2.point = inter
    · obtain ⟨d2se, d2o, d2r, d2l, d2f, d2len, d2q, d2log⟩ :=
        divide_spec i2 o2Id inter st se2 other2 hse2 ho2 hot2 hne2o2
      simp only [if_neg hns1, if_pos hns2]
      have s1 : (divide_segment i2 inter st).events[i1]? = some se1 := by
        rw [d2f i1 hne12 hne1o2 hlt1]
        exact hse1
      have s1o : (divide_segment i2 inter st).events[o1Id]? = some other1 := by
        rw [d2f o1Id hneo12 hneo1o2 hlto1]
        exact hot1
      refine ⟨trivial, ?_, fun h => absurd h hns1,
        fun _ => by rw [spanOf_eq s1 ho1 s1o],
        fun _ => ⟨by rw [spanOf_eq d2se rfl d2r], by rw [spanOf_eq d2l rfl d2o]⟩,
        fun h => absurd hns2 h⟩
      rw [d2log]
      simp
    · simp only [if_neg hns1, if_neg hns2]
      refine ⟨trivial, by simp, fun h => absurd h hns1,
        fun _ => by rw [spanOf_eq hse1 ho1 hot1],
        fun h => absurd h hns2,
        fun _ => by rw [spanOf_eq hse2 ho2 hot2]⟩


theorem C2_point_splits_witness :
    (possible_intersection (constPoint (2, 0)) lexLt 0 2 stCross).1 = 1 ∧
    spanOf (possible_intersection (constPoint (2, 0)) lexLt 0 2 stCross).2 0 =
      some ((0, 0), (2, 0)) :=
  have h := C2_point_splits (constPoint (2, 0)) lexLt 0 2 1 3 stCross
    { point := (0, 0), isLeft := true, otherEvent := some 1, isSubject := true,
      edgeType := EdgeType.Normal, inOut := false }
    { point := (4, 0), isLeft := false, otherEvent := some 0, isSubject := true,
      edgeType := EdgeType.Normal, inOut := false }
    { point := (2, -2), isLeft := true, otherEvent := some 3, isSubject := false,
      edgeType := EdgeType.Normal, inOut := false }
    { point := (2, 2), isLeft := false, otherEvent := some 2, isSubject := false,
      edgeType := EdgeType.Normal, inOut := false }
    (2, 0) (by decide) (by decide) (by decide) (by decide) (by decide) (by decide)
    (by decide) (by decide) (by decide) (by decide)
  ⟨h.1, (h.2.2.1 (by decide)).1⟩


/-- Exact description of the shared-left-endpoint branch of the overlap
resolution: code 2, `se2` marked NonContributing, `se1` marked
Same/DifferentTransition by the `in_out` comparison, and one splitter call
on the heap-later (longer) edge at the heap-earlier right endpoint when the
right endpoints differ. -/
theorem overlapResolve_left (ptLt : Pt → Pt → Bool) (i1 o1Id i2 o2Id : Nat)
    (se1 other1 se2 other2 : SweepEvent Pt) (st : State Pt)
    (hl : se1.point = se2.point) :
    overlapResolve ptLt i1 o1Id i2 o2Id se1 other1 se2 other2 st =
      (2, if se1.point = se2.point ∧ ¬ other1.point = other2.point then
            divide_segment (if sweepEventLt ptLt other1 other2 then i1 else i2)
              (if sweepEventLt ptLt other1 other2 then other2.point else other1.point)
              (if se1.inOut = se2.inOut then
                setEdgeType (setEdgeType st i2 EdgeType.NonContributing) i1 EdgeType.SameTransition
               else
                setEdgeType (setEdgeType st i2 EdgeType.NonContributing) i1
                  EdgeType.DifferentTransition)
          else
            (if se1.inOut = se2.inOut then
              setEdgeType (setEdgeType st i2 EdgeType.NonContributing) i1 EdgeType.SameTransition
             else
              setEdgeType (setEdgeType st i2 EdgeType.NonContributing) i1
                EdgeType.DifferentTransition)) := by
  by_cases hrc : other1.point = other2.point
  · have hcond : ¬ (se1.point = se2.point ∧ ¬ other1.point = other2.point) := fun hh => hh.2 hrc
    simp only [overlapResolve, overlapEntries, if_pos hl, if_pos hrc, if_neg hcond]
  · have hcond : se1.point = se2.point ∧ ¬ other1.point = other2.point := ⟨hl, hrc⟩
    by_cases hlt : sweepEventLt ptLt other1 other2 = true
    · simp only [overlapResolve, overlapEntries, if_pos hl, if_neg hrc, if_pos hcond, if_pos hlt]
      rfl
    · simp only [overlapResolve, overlapEntries, if_pos hl, if_neg hrc, if_pos hcond,
        if_neg hlt]
      rfl


theorem marks_aux (st : State Pt) (i1 i2 : Nat) (t : EdgeType)
    {se1 se2 : SweepEvent Pt}
    (hse1 : st.events[i1]? = some se1) (hse2 : st.events[i2]? = some se2)
    (hne12 : i1 ≠ i2) :
    (setEdgeType (setEdgeType st i2 EdgeType.NonContributing) i1 t).events[i1]? =
      some { se1 with edgeType := t } ∧
    (setEdgeType (setEdgeType st i2 EdgeType.NonContributing) i1 t).events[i2]? =
      some { se2 with edgeType := EdgeType.NonContributing } ∧
    (∀ j, j ≠ i1 → j ≠ i2 →
      (setEdgeType (setEdgeType st i2 EdgeType.NonContributing) i1 t).events[j]? =
        st.events[j]?) ∧
    (setEdgeType (setEdgeType st i2 EdgeType.NonContributing) i1 t).events.length =
      st.events.length ∧
    (setEdgeType (setEdgeType st i2 EdgeType.NonContributing) i1 t).queue = st.queue ∧
    (setEdgeType (setEdgeType st i2 EdgeType.NonContributing) i1 t).log = st.log := by
  have hA1 : (setEdgeType st i2 EdgeType.NonContributing).events[i1]? = some se1 := by
    rw [setEdgeType_get_ne st i2 i1 _ (Ne.symm hne12)]
    exact hse1
  refine ⟨setEdgeType_get_self _ i1 t se1 hA1, ?_, ?_, ?_, ?_, ?_⟩
  · rw [setEdgeType_get_ne _ i1 i2 t hne12]
    exact setEdgeType_get_self st i2 _ se2 hse2
  · intro j hj1 hj2
    rw [setEdgeType_get_ne _ i1 j t (fun hh => hj1 hh.symm),
      setEdgeType_get_ne st i2 j _ (fun hh => hj2 hh.symm)]
  · rw [setEdgeType_length, setEdgeType_length]
  · rw [setEdgeType_queue, setEdgeType_queue]
  · rw [setEdgeType_log, setEdgeType_log]

/-- Edge-type outcome of the shared-left-endpoint overlap branch: `se2`
becomes NonContributing, `se1` becomes Same/DifferentTransition by the
`in_out` comparison, and no other pre-existing event's edge type changes. -/
theorem overlapLeft_marks (ptLt : Pt → Pt → Bool) (i1 o1Id i2 o2Id : Nat)
    (se1 other1 se2 other2 : SweepEvent Pt) (st : State Pt)
    (hse1 : st.events[i1]? = some se1) (hse2 : st.events[i2]? = some se2)
    (hne12 : i1 ≠ i2) (hl : se1.point = se2.point) :
    edgeTypeAt (overlapResolve ptLt i1 o1Id i2 o2Id se1 other1 se2 other2 st).2 i2 =
      some EdgeType.NonContributing ∧
    edgeTypeAt (overlapResolve ptLt i1 o1Id i2 o2Id se1 other1 se2 other2 st).2 i1 =
      some (if se1.inOut = se2.inOut then EdgeType.SameTransition
            else EdgeType.DifferentTransition) ∧
    (∀ j, j < st.events.length → j ≠ i1 → j ≠ i2 →
      edgeTypeAt (overlapResolve ptLt i1 o1Id i2 o2Id se1 other1 se2 other2 st).2 j =
        edgeTypeAt st j) := by
  have hlt1 : i1 < st.events.length := (List.getElem?_eq_some.mp hse1).1
  have hlt2 : i2 < st.events.length := (List.getElem?_eq_some.mp hse2).1
  rw [overlapResolve_left ptLt i1 o1Id i2 o2Id se1 other1 se2 other2 st hl]
  by_cases hio : se1.inOut = se2.inOut
  case pos =>
    simp only [if_pos hio]
    obtain ⟨m1, m2, mf, mlen, mq, ml⟩ :=
      marks_aux st i1 i2 EdgeType.SameTransition hse1 hse2 hne12
    by_cases hdiv : se1.point = se2.point ∧ ¬ other1.point = other2.point
    · simp only [if_pos hdiv]
      refine ⟨?_, ?_, ?_⟩
      · rw [divide_edgeTypeAt _ _ _ i2 (by rw [mlen]; exact hlt2)]
        simp [edgeTypeAt, m2]
      · rw [divide_edgeTypeAt _ _ _ i1 (by rw [mlen]; exact hlt1)]
        simp [edgeTypeAt, m1]
      · intro j hj hj1 hj2
        rw [divide_edgeTypeAt _ _ _ j (by rw [mlen]; exact hj)]
        simp [edgeTypeAt, mf j hj1 hj2]
    · simp only [if_neg hdiv]
      refine ⟨by simp [edgeTypeAt, m2], by simp [edgeTypeAt, m1], ?_⟩
      intro j hj hj1 hj2
      simp [edgeTypeAt, mf j hj1 hj2]
  case neg =>
    simp only [if_neg hio]
    obtain ⟨m1, m2, mf, mlen, mq, ml⟩ :=
      marks_aux st i1 i2 EdgeType.DifferentTransition hse1 hse2 hne12
    by_cases hdiv : se1.point = se2.point ∧ ¬ other1.point = other2.point
    · simp only [if_pos hdiv]
      refine ⟨?_, ?_, ?_⟩
      · rw [divide_edgeTypeAt _ _ _ i2 (by rw [mlen]; exact hlt2)]
        simp [edgeTypeAt, m2]
      · rw [divide_edgeTypeAt _ _ _ i1 (by rw [mlen]; exact hlt1)]
        simp [edgeTypeAt, m1]
      · intro j hj hj1 hj2
        rw [divide_edgeTypeAt _ _ _ j (by rw [mlen]; exact hj)]
        simp [edgeTypeAt, mf j hj1 hj2]
    · simp only [if_neg hdiv]
      refine ⟨by simp [edgeTypeAt, m2], by simp [edgeTypeAt, m1], ?_⟩
      intro j hj hj1 hj2
      simp [edgeTypeAt, mf j hj1 hj2]

theorem overlapResolve_edgeTypes_not_left (ptLt : Pt → Pt → Bool) (i1 o1Id i2 o2Id : Nat)
    (se1 other1 se2 other2 : SweepEvent Pt) (st : State Pt)
    (hl : ¬ se1.point = se2.point) (j : Nat) (hj : j < st.events.length) :
    edgeTypeAt (overlapResolve ptLt i1 o1Id i2 o2Id se1 other1 se2 other2 st).2 j =
      edgeTypeAt st j := by
  simp only [overlapResolve]
  rw [if_neg hl]
  split
  · dsimp only
    exact divide_edgeTypeAt _ _ _ _ hj
  · split
    · dsimp only
      rw [divide_edgeTypeAt _ _ _ j (lt_of_lt_of_le hj (divide_length_ge _ _ _))]
      exact divide_edgeTypeAt _ _ _ _ hj
    · dsimp only
      rw [divide_edgeTypeAt _ _ _ j (lt_of_lt_of_le hj (divide_length_ge _ _ _))]
      exact divide_edgeTypeAt _ _ _ _ hj

/-- Outside the left-coincident different-polygon overlap branch (the
condition of return code 2), `possible_intersection` changes no edge type
at all, including those of the two events passed in. -/
theorem pi_edgeTypes_of_not_ret2 (intersect : Pt → Pt → Pt → Pt → LineIntersection Pt)
    (ptLt : Pt → Pt → Bool) (i1 i2 : Nat) (st : State Pt)
    (h : ¬ ret2Spec intersect i1 i2 st) (j : Nat) (hj : j < st.events.length) :
    edgeTypeAt (possible_intersection intersect ptLt i1 i2 st).2 j = edgeTypeAt st j := by
  rcases h1 : lookupPair st i1 with _ | ⟨se1, o1Id, other1⟩
  · rw [pi_none_left intersect ptLt i1 i2 st h1]
  · rcases h2 : lookupPair st i2 with _ | ⟨se2, o2Id, other2⟩
    · rw [pi_none_right intersect ptLt i1 i2 st h2]
    · rcases h3 : intersect se1.point other1.point se2.point other2.point with _ | p | ⟨p, q⟩
      · have hred : possible_intersection intersect ptLt i1 i2 st = (0, st) := by
          simp only [possible_intersection, h1, h2, h3]
        rw [hred]
      · by_cases hc : se1.point = se2.point ∧ other1.point = other2.point
        · have hred : possible_intersection intersect ptLt i1 i2 st = (0, st) := by
            simp only [possible_intersection, h1, h2, h3]
            rw [if_pos hc]
          rw [hred]
        · have hred : (possible_intersection intersect ptLt i1 i2 st).2 =
              (if ¬ se2.point = p ∧ ¬ other2.point = p then
                divide_segment i2 p
                  (if ¬ se1.point = p ∧ ¬ other1.point = p then divide_segment i1 p st else st)
               else
                (if ¬ se1.point = p ∧ ¬ other1.point = p then divide_segment i1 p st else st)) := by
            simp only [possible_intersection, h1, h2, h3]
            rw [if_neg hc]
          rw [hred]
          have hmid : ∀ stM : State Pt, st.events.length ≤ stM.events.length →
              edgeTypeAt stM j = edgeTypeAt st j →
              edgeTypeAt (if ¬ se2.point = p ∧ ¬ other2.point = p then
                divide_segment i2 p stM else stM) j = edgeTypeAt st j := by
            intro stM hlen he
            split
            · rw [divide_edgeTypeAt _ _ _ j (lt_of_lt_of_le hj hlen)]
              exact he
            · exact he
          by_cases hc1 : ¬ se1.point = p ∧ ¬ other1.point = p
          · rw [if_pos hc1]
            exact hmid _ (divide_length_ge _ _ _) (divide_edgeTypeAt _ _ _ _ hj)
          · rw [if_neg hc1]
            exact hmid _ (le_refl _) rfl
      · by_cases hs : se1.isSubject = se2.isSubject
        · have hred : possible_intersection intersect ptLt i1 i2 st = (0, st) := by
            simp only [possible_intersection, h1, h2, h3]
            rw [if_pos hs]
          rw [hred]
        · have hov : possible_intersection intersect ptLt i1 i2 st =
              overlapResolve ptLt i1 o1Id i2 o2Id se1 other1 se2 other2 st := by
            simp only [possible_intersection, h1, h2, h3]
            rw [if_neg hs]
          rw [hov]
          by_cases hl : se1.point = se2.point
          · exact absurd ⟨se1, o1Id, other1, se2, o2Id, other2, h1, h2, ⟨p, q, h3⟩, hs, hl⟩ h
          · exact overlapResolve_edgeTypes_not_left ptLt i1 o1Id i2 o2Id se1 other1 se2 other2
              st hl j hj


/-- C3: for a collinear overlap between edges of different polygons with
coincident left endpoints, `possible_intersection` marks `se2`
NonContributing, marks `se1` SameTransition exactly when the two `in_out`
flags agree (DifferentTransition otherwise), performs exactly one split —
of the heap-later (longer) edge, at the point where the other (shorter)
edge ends — when the right endpoints differ and none when they coincide,
returns 2; and outside this branch `possible_intersection` never changes
any edge type. -/
theorem C3_left_coincident_overlap (intersect : Pt → Pt → Pt → Pt → LineIntersection Pt)
    (ptLt : Pt → Pt → Bool) (i1 i2 o1Id o2Id : Nat) (st : State Pt)
    (se1 other1 se2 other2 : SweepEvent Pt) (p q : Pt)
    (h1 : lookupPair st i1 = some (se1, o1Id, other1))
    (h2 : lookupPair st i2 = some (se2, o2Id, other2))
    (h3 : intersect se1.point other1.point se2.point other2.point = LineIntersection.Overlap p q)
    (hs : ¬ se1.isSubject = se2.isSubject) (hl : se1.point = se2.point)
    (hne12 : i1 ≠ i2) (hne1o1 : i1 ≠ o1Id) (hne1o2 : i1 ≠ o2Id)
    (hneo12 : o1Id ≠ i2) (hneo1o2 : o1Id ≠ o2Id) (hne2o2 : i2 ≠ o2Id) :
    (possible_intersection intersect ptLt i1 i2 st).1 = 2 ∧
    edgeTypeAt (possible_intersection intersect ptLt i1 i2 st).2 i2 =
      some EdgeType.NonContributing ∧
    edgeTypeAt (possible_intersection intersect ptLt i1 i2 st).2 i1 =
      some (if se1.inOut = se2.inOut then EdgeType.SameTransition
            else EdgeType.DifferentTransition) ∧
    (∀ j, j < st.events.length → j ≠ i1 → j ≠ i2 →
      edgeTypeAt (possible_intersection intersect ptLt i1 i2 st).2 j = edgeTypeAt st j) ∧
    (other1.point = other2.point →
      (possible_intersection intersect ptLt i1 i2 st).2.log = st.log ∧
      (possible_intersection intersect ptLt i1 i2 st).2.queue = st.queue) ∧
    (¬ other1.point = other2.point →
      (possible_intersection intersect ptLt i1 i2 st).2.log = st.log ++
        [if sweepEventLt ptLt other1 other2 = true then
          { seId := i1, leftPoint := se1.point, rightPoint := other1.point,
            splitPoint := other2.point }
         else
          { seId := i2, leftPoint := se2.point, rightPoint := other2.point,
            splitPoint := other1.point }]) ∧
    (∀ intersectX : Pt → Pt → Pt → Pt → LineIntersection Pt, ∀ ptLtX : Pt → Pt → Bool,
      ∀ i1X i2X : Nat, ∀ stX : State Pt, ¬ ret2Spec intersectX i1X i2X stX →
      ∀ j, j < stX.events.length →
        edgeTypeAt (possible_intersection intersectX ptLtX i1X i2X stX).2 j =
          edgeTypeAt stX j) := by
  obtain ⟨hse1, ho1, hot1⟩ := lookupPair_inv h1
  obtain ⟨hse2, ho2, hot2⟩ := lookupPair_inv h2
  have hov : possible_intersection intersect ptLt i1 i2 st =
      overlapResolve ptLt i1 o1Id i2 o2Id se1 other1 se2 other2 st := by
    simp only [possible_intersection, h1, h2, h3]
    rw [if_neg hs]
  have marks := overlapLeft_marks ptLt i1 o1Id i2 o2Id se1 other1 se2 other2 st hse1 hse2
    hne12 hl
  rw [hov]
  refine ⟨?_, marks.1, marks.2.1, marks.2.2, ?_, ?_,
    fun iX pX aX bX sX hX j hj => pi_edgeTypes_of_not_ret2 iX pX aX bX sX hX j hj⟩
  · rw [overlapResolve_fst, if_pos hl]
  · intro hrc
    rw [overlapResolve_left ptLt i1 o1Id i2 o2Id se1 other1 se2 other2 st hl]
    dsimp only
    rw [if_neg (fun hh => hh.2 hrc)]
    by_cases hio : se1.inOut = se2.inOut
    · rw [if_pos hio]
      obtain ⟨-, -, -, -, mq, ml⟩ :=
        marks_aux st i1 i2 EdgeType.SameTransition hse1 hse2 hne12
      exact ⟨ml, mq⟩
    · rw [if_neg hio]
      obtain ⟨-, -, -, -, mq, ml⟩ :=
        marks_aux st i1 i2 EdgeType.DifferentTransition hse1 hse2 hne12
      exact ⟨ml, mq⟩
  · intro hrc
    rw [overlapResolve_left ptLt i1 o1Id i2 o2Id se1 other1 se2 other2 st hl]
    dsimp only
    rw [if_pos ⟨hl, hrc⟩]
    by_cases hio : se1.inOut = se2.inOut
    · rw [if_pos hio]
      obtain ⟨m1, m2, mf, mlen, mq, ml⟩ :=
        marks_aux st i1 i2 EdgeType.SameTransition hse1 hse2 hne12
      by_cases hlt : sweepEventLt ptLt other1 other2 = true
      · rw [if_pos hlt, if_pos hlt, if_pos hlt]
        have hBo1 : (setEdgeType (setEdgeType st i2 EdgeType.NonContributing) i1
            EdgeType.SameTransition).events[o1Id]? = some other1 := by
          rw [mf o1Id (Ne.symm hne1o1) hneo12]
          exact hot1
        obtain ⟨-, -, -, -, -, -, -, dlog⟩ :=
          divide_spec i1 o1Id other2.point _ { se1 with edgeType := EdgeType.SameTransition }
            other1 m1 ho1 hBo1 hne1o1
        rw [dlog, ml]
      · rw [if_neg hlt, if_neg hlt, if_neg hlt]
        have hBo2 : (setEdgeType (setEdgeType st i2 EdgeType.NonContributing) i1
            EdgeType.SameTransition).events[o2Id]? = some other2 := by
          rw [mf o2Id (Ne.symm hne1o2) (Ne.symm hne2o2)]
          exact hot2
        obtain ⟨-, -, -, -, -, -, -, dlog⟩ :=
          divide_spec i2 o2Id other1.point _
            { se2 with edgeType := EdgeType.NonContributing }
            other2 m2 ho2 hBo2 hne2o2
        rw [dlog, ml]
    · rw [if_neg hio]
      obtain ⟨m1, m2, mf, mlen, mq, ml⟩ :=
        marks_aux st i1 i2 EdgeType.DifferentTransition hse1 hse2 hne12
      by_cases hlt : sweepEventLt ptLt other1 other2 = true
      · rw [if_pos hlt, if_pos hlt, if_pos hlt]
        have hBo1 : (setEdgeType (setEdgeType st i2 EdgeType.NonContributing) i1
            EdgeType.DifferentTransition).events[o1Id]? = some other1 := by
          rw [mf o1Id (Ne.symm hne1o1) hneo12]
          exact hot1
        obtain ⟨-, -, -, -, -, -, -, dlog⟩ :=
          divide_spec i1 o1Id other2.point _
            { se1 with edgeType := EdgeType.DifferentTransition }
            other1 m1 ho1 hBo1 hne1o1
        rw [dlog, ml]
      · rw [if_neg hlt, if_neg hlt, if_neg hlt]
        have hBo2 : (setEdgeType (setEdgeType st i2 EdgeType.NonContributing) i1
            EdgeType.DifferentTransition).events[o2Id]? = some other2 := by
          rw [mf o2Id (Ne.symm hne1o2) (Ne.symm hne2o2)]
          exact hot2
        obtain ⟨-, -, -, -, -, -, -, dlog⟩ :=
          divide_spec i2 o2Id other1.point _
            { se2 with edgeType := EdgeType.NonContributing }
            other2 m2 ho2 hBo2 hne2o2
        rw [dlog, ml]

theorem C3_left_coincident_overlap_witness :
    (possible_intersection (constOverlap (0, 0) (5, 0)) lexLt 0 2 stLeftCo).1 = 2 ∧
    edgeTypeAt (possible_intersection (constOverlap (0, 0) (5, 0)) lexLt 0 2 stLeftCo).2 2 =
      some EdgeType.NonContributing ∧
    edgeTypeAt (possible_intersection (constOverlap (0, 0) (5, 0)) lexLt 0 2 stLeftCo).2 0 =
      some EdgeType.SameTransition :=
  have h := C3_left_coincident_overlap (constOverlap (0, 0) (5, 0)) lexLt 0 2 1 3 stLeftCo
    { point := (0, 0), isLeft := true, otherEvent := some 1, isSubject := true,
      edgeType := EdgeType.Normal, inOut := false }
    { point := (10, 0), isLeft := false, otherEvent := some 0, isSubject := true,
      edgeType := EdgeType.Normal, inOut := false }
    { point := (0, 0), isLeft := true, otherEvent := some 3, isSubject := false,
      edgeType := EdgeType.Normal, inOut := false }
    { point := (5, 0), isLeft := false, otherEvent := some 2, isSubject := false,
      edgeType := EdgeType.Normal, inOut := false }
    (0, 0) (5, 0) (by decide) (by decide) (by decide) (by decide) (by decide)
    (by decide) (by decide) (by decide) (by decide) (by decide) (by decide)
  ⟨h.1, h.2.1, h.2.2.1⟩


/-- C9: the overlap reclassification is keyed to argument position, not to
Event Ordering: on a left-coincident different-polygon overlap both call
orders return 2, but `possible_intersection se1 se2` suppresses the
second argument's edge (NonContributing) and marks the first argument's
edge Same/DifferentTransition, while `possible_intersection se2 se1`
swaps the two roles — and this holds for every point ordering `ptLt`. -/
theorem C9_argument_position (intersect : Pt → Pt → Pt → Pt → LineIntersection Pt)
    (ptLt : Pt → Pt → Bool) (i1 i2 o1Id o2Id : Nat) (st : State Pt)
    (se1 other1 se2 other2 : SweepEvent Pt) (p q p2 q2 : Pt)
    (h1 : lookupPair st i1 = some (se1, o1Id, other1))
    (h2 : lookupPair st i2 = some (se2, o2Id, other2))
    (h3a : intersect se1.point other1.point se2.point other2.point =
      LineIntersection.Overlap p q)
    (h3b : intersect se2.point other2.point se1.point other1.point =
      LineIntersection.Overlap p2 q2)
    (hs : ¬ se1.isSubject = se2.isSubject) (hl : se1.point = se2.point) :
    (possible_intersection intersect ptLt i1 i2 st).1 = 2 ∧
    (possible_intersection intersect ptLt i2 i1 st).1 = 2 ∧
    edgeTypeAt (possible_intersection intersect ptLt i1 i2 st).2 i2 =
      some EdgeType.NonContributing ∧
    edgeTypeAt (possible_intersection intersect ptLt i1 i2 st).2 i1 =
      some (if se1.inOut = se2.inOut then EdgeType.SameTransition
            else EdgeType.DifferentTransition) ∧
    edgeTypeAt (possible_intersection intersect ptLt i2 i1 st).2 i1 =
      some EdgeType.NonContributing ∧
    edgeTypeAt (possible_intersection intersect ptLt i2 i1 st).2 i2 =
      some (if se2.inOut = se1.inOut then EdgeType.SameTransition
            else EdgeType.DifferentTransition) := by
  obtain ⟨hse1, ho1, hot1⟩ := lookupPair_inv h1
  obtain ⟨hse2, ho2, hot2⟩ := lookupPair_inv h2
  have hne12 : i1 ≠ i2 := by
    intro he
    rw [he, h2] at h1
    obtain ⟨e1, -, -⟩ : se2 = se1 ∧ o2Id = o1Id ∧ other2 = other1 := by simpa using h1
    exact hs (by rw [e1])
  have hovA : possible_intersection intersect ptLt i1 i2 st =
      overlapResolve ptLt i1 o1Id i2 o2Id se1 other1 se2 other2 st := by
    simp only [possible_intersection, h1, h2, h3a]
    rw [if_neg hs]
  have hovB : possible_intersection intersect ptLt i2 i1 st =
      overlapResolve ptLt i2 o2Id i1 o1Id se2 other2 se1 other1 st := by
    simp only [possible_intersection, h2, h1, h3b]
    rw [if_neg (fun hh => hs hh.symm)]
  have marksA := overlapLeft_marks ptLt i1 o1Id i2 o2Id se1 other1 se2 other2 st hse1 hse2
    hne12 hl
  have marksB := overlapLeft_marks ptLt i2 o2Id i1 o1Id se2 other2 se1 other1 st hse2 hse1
    (Ne.symm hne12) hl.symm
  refine ⟨?_, ?_, ?_, ?_, ?_, ?_⟩
  · rw [hovA, overlapResolve_fst, if_pos hl]
  · rw [hovB, overlapResolve_fst, if_pos hl.symm]
  · rw [hovA]
    exact marksA.1
  · rw [hovA]
    exact marksA.2.1
  · rw [hovB]
    exact marksB.1
  · rw [hovB]
    exact marksB.2.1

theorem C9_argument_position_witness :
    (possible_intersection (constOverlap (0, 0) (5, 0)) lexLt 0 2 stLeftCo).1 = 2 ∧
    (possible_intersection (constOverlap (0, 0) (5, 0)) lexLt 2 0 stLeftCo).1 = 2 ∧
    edgeTypeAt (possible_intersection (constOverlap (0, 0) (5, 0)) lexLt 0 2 stLeftCo).2 2 =
      some EdgeType.NonContributing ∧
    edgeTypeAt (possible_intersection (constOverlap (0, 0) (5, 0)) lexLt 2 0 stLeftCo).2 0 =
      some EdgeType.NonContributing :=
  have h := C9_argument_position (constOverlap (0, 0) (5, 0)) lexLt 0 2 1 3 stLeftCo
    { point := (0, 0), isLeft := true, otherEvent := some 1, isSubject := true,
      edgeType := EdgeType.Normal, inOut := false }
    { point := (10, 0), isLeft := false, otherEvent := some 0, isSubject := true,
      edgeType := EdgeType.Normal, inOut := false }
    { point := (0, 0), isLeft := true, otherEvent := some 3, isSubject := false,
      edgeType := EdgeType.Normal, inOut := false }
    { point := (5, 0), isLeft := false, otherEvent := some 2, isSubject := false,
      edgeType := EdgeType.Normal, inOut := false }
    (0, 0) (5, 0) (0, 0) (5, 0) (by decide) (by decide) (by decide) (by decide)
    (by decide) (by decide)
  ⟨h.1, h.2.1, h.2.2.1, h.2.2.2.2.1⟩


/-- C10: the overlap branch never reads the coordinates reported inside the
`Overlap` classification — two predicates that agree on classifying the
edges as overlapping but report different coordinate pairs induce exactly
the same return code and the same final state. -/
theorem C10_overlap_coordinate_independence
    (intersectA intersectB : Pt → Pt → Pt → Pt → LineIntersection Pt)
    (ptLt : Pt → Pt → Bool) (i1 i2 o1Id o2Id : Nat) (st : State Pt)
    (se1 other1 se2 other2 : SweepEvent Pt) (p q p2 q2 : Pt)
    (h1 : lookupPair st i1 = some (se1, o1Id, other1))
    (h2 : lookupPair st i2 = some (se2, o2Id, other2))
    (hiA : intersectA se1.point other1.point se2.point other2.point =
      LineIntersection.Overlap p q)
    (hiB : intersectB se1.point other1.point se2.point other2.point =
      LineIntersection.Overlap p2 q2) :
    possible_intersection intersectA ptLt i1 i2 st =
      possible_intersection intersectB ptLt i1 i2 st := by
  simp only [possible_intersection, h1, h2, hiA, hiB]

theorem C10_overlap_coordinate_independence_witness :
    possible_intersection (constOverlap (0, 0) (1, 1)) lexLt 0 2 stContain =
      possible_intersection (constOverlap (7, 8) (9, 9)) lexLt 0 2 stContain :=
  C10_overlap_coordinate_independence (constOverlap (0, 0) (1, 1)) (constOverlap (7, 8) (9, 9))
    lexLt 0 2 1 3 stContain
    { point := (0, 0), isLeft := true, otherEvent := some 1, isSubject := true,
      edgeType := EdgeType.Normal, inOut := false }
    { point := (10, 0), isLeft := false, otherEvent := some 0, isSubject := true,
      edgeType := EdgeType.Normal, inOut := false }
    { point := (2, 0), isLeft := true, otherEvent := some 3, isSubject := false,
      edgeType := EdgeType.Normal, inOut := false }
    { point := (5, 0), isLeft := false, otherEvent := some 2, isSubject := false,
      edgeType := EdgeType.Normal, inOut := false }
    (0, 0) (1, 1) (7, 8) (9, 9) (by decide) (by decide) (by decide) (by decide)

/-- C6 as written claims the working entries record the Event-Ordering
LATER event first in each pair; on the partial-overlap instance the first
working entry is the edge whose left endpoint (0, 0) is Event-Ordering
EARLIER than the other left endpoint (2, 0) — its index is 0, not 2 — so
the claimed order is refuted. -/
theorem C6_order_counterexample :
    overlapEntries lexLt 0 1 2 3
      { point := (0, 0), isLeft := true, otherEvent := some 1, isSubject := true,
        edgeType := EdgeType.Normal, inOut := false }
      { point := (5, 0), isLeft := false, otherEvent := some 0, isSubject := true,
        edgeType := EdgeType.Normal, inOut := false }
      { point := (2, 0), isLeft := true, otherEvent := some 3, isSubject := false,
        edgeType := EdgeType.Normal, inOut := false }
      { point := (8, 0), isLeft := false, otherEvent := some 2, isSubject := false,
        edgeType := EdgeType.Normal, inOut := false } =
      [((0, ((0, 0) : Int × Int)), (1, ((5, 0) : Int × Int))), ((2, (2, 0)), (3, (8, 0))),
       ((1, (5, 0)), (0, (0, 0))), ((3, (8, 0)), (2, (2, 0)))] ∧
    lexLt (0, 0) (2, 0) = true ∧
    ¬ ((overlapEntries lexLt 0 1 2 3
      { point := (0, 0), isLeft := true, otherEvent := some 1, isSubject := true,
        edgeType := EdgeType.Normal, inOut := false }
      { point := (5, 0), isLeft := false, otherEvent := some 0, isSubject := true,
        edgeType := EdgeType.Normal, inOut := false }
      { point := (2, 0), isLeft := true, otherEvent := some 3, isSubject := false,
        edgeType := EdgeType.Normal, inOut := false }
      { point := (8, 0), isLeft := false, otherEvent := some 2, isSubject := false,
        edgeType := EdgeType.Normal, inOut := false }).getD 0
        ((0, ((0, 0) : Int × Int)), (0, ((0, 0) : Int × Int)))).1.1 = 2 := by
  decide

/-- C6 amended: in the different-polygon overlap branch, when the left
endpoints differ the first two working entries are the two left events with
the Event-Ordering EARLIER one first and the later second, and when the
right endpoints differ the next two entries are the two right events in the
same earlier-first order, each paired with its own segment's other
endpoint; earlier-first is exactly the order in which the event queue pops
events. -/
theorem C6_entries_order_amended (ptLt : Pt → Pt → Bool) (i1 o1Id i2 o2Id : Nat)
    (se1 other1 se2 other2 : SweepEvent Pt)
    (hlne : ¬ se1.point = se2.point) (hrne : ¬ other1.point = other2.point)
    (hasymL : ptLt se2.point se1.point = true → ptLt se1.point se2.point = false)
    (htotL : ptLt se2.point se1.point = false → ptLt se1.point se2.point = true)
    (hasymR : ptLt other2.point other1.point = true → ptLt other1.point other2.point = false)
    (htotR : ptLt other2.point other1.point = false → ptLt other1.point other2.point = true) :
    overlapEntries ptLt i1 o1Id i2 o2Id se1 other1 se2 other2 =
      (if ptLt se1.point se2.point then
        [((i1, se1.point), (o1Id, other1.point)), ((i2, se2.point), (o2Id, other2.point))]
       else
        [((i2, se2.point), (o2Id, other2.point)), ((i1, se1.point), (o1Id, other1.point))]) ++
      (if ptLt other1.point other2.point then
        [((o1Id, other1.point), (i1, se1.point)), ((o2Id, other2.point), (i2, se2.point))]
       else
        [((o2Id, other2.point), (i2, se2.point)), ((o1Id, other1.point), (i1, se1.point))]) := by
  unfold overlapEntries sweepEventLt
  rw [if_neg hlne, if_neg hrne]
  by_cases hL : ptLt se2.point se1.point = true
  · have h1f : ptLt se1.point se2.point = false := hasymL hL
    by_cases hR : ptLt other2.point other1.point = true
    · have h2f : ptLt other1.point other2.point = false := hasymR hR
      simp [hL, hR, h1f, h2f]
    · have hRf : ptLt other2.point other1.point = false := by
        cases hx : ptLt other2.point other1.point
        · rfl
        · exact absurd hx hR
      have h2t : ptLt other1.point other2.point = true := htotR hRf
      simp [hL, hRf, h1f, h2t]
  · have hLf : ptLt se2.point se1.point = false := by
      cases hx : ptLt se2.point se1.point
      · rfl
      · exact absurd hx hL
    have h1t : ptLt se1.point se2.point = true := htotL hLf
    by_cases hR : ptLt other2.point other1.point = true
    · have h2f : ptLt other1.point other2.point = false := hasymR hR
      simp [hLf, hR, h1t, h2f]
    · have hRf : ptLt other2.point other1.point = false := by
        cases hx : ptLt other2.point other1.point
        · rfl
        · exact absurd hx hR
      have h2t : ptLt other1.point other2.point = true := htotR hRf
      simp [hLf, hRf, h1t, h2t]

theorem C6_entries_order_amended_witness :
    overlapEntries lexLt 0 1 2 3
      { point := (0, 0), isLeft := true, otherEvent := some 1, isSubject := true,
        edgeType := EdgeType.Normal, inOut := false }
      { point := (5, 0), isLeft := false, otherEvent := some 0, isSubject := true,
        edgeType := EdgeType.Normal, inOut := false }
      { point := (2, 0), isLeft := true, otherEvent := some 3, isSubject := false,
        edgeType := EdgeType.Normal, inOut := false }
      { point := (8, 0), isLeft := false, otherEvent := some 2, isSubject := false,
        edgeType := EdgeType.Normal, inOut := false } =
      (if lexLt (0, 0) (2, 0) then
        [((0, ((0, 0) : Int × Int)), (1, ((5, 0) : Int × Int))), ((2, (2, 0)), (3, (8, 0)))]
       else
        [((2, (2, 0)), (3, (8, 0))), ((0, (0, 0)), (1, (5, 0)))]) ++
      (if lexLt (5, 0) (8, 0) then
        [((1, ((5, 0) : Int × Int)), (0, ((0, 0) : Int × Int))), ((3, (8, 0)), (2, (2, 0)))]
       else
        [((3, (8, 0)), (2, (2, 0))), ((1, (5, 0)), (0, (0, 0)))]) :=
  C6_entries_order_amended lexLt 0 1 2 3
    { point := (0, 0), isLeft := true, otherEvent := some 1, isSubject := true,
      edgeType := EdgeType.Normal, inOut := false }
    { point := (5, 0), isLeft := false, otherEvent := some 0, isSubject := true,
      edgeType := EdgeType.Normal, inOut := false }
    { point := (2, 0), isLeft := true, otherEvent := some 3, isSubject := false,
      edgeType := EdgeType.Normal, inOut := false }
    { point := (8, 0), isLeft := false, otherEvent := some 2, isSubject := false,
      edgeType := EdgeType.Normal, inOut := false }
    (by decide) (by decide) (by decide) (by decide) (by decide) (by decide)


/-- C8 as written claims `possible_intersection` asserts/fails fast on a
contract-violating classification; on a predicate reporting a `Point`
coincident with both edges' both endpoints it instead silently returns 0
with the state — store, queue and splitter log — completely unchanged. -/
theorem C8_counterexample_no_assert :
    possible_intersection (constPoint (9, 9)) lexLt 0 2
        (twoEdgeState (0, 0) (1, 0) (0, 0) (1, 0) false false) =
      (0, twoEdgeState (0, 0) (1, 0) (0, 0) (1, 0) false false) := by
  decide

/-- C8 amended: `possible_intersection` never asserts on a
contract-violating classification: a `Point` coincident with both endpoint
pairs is silently folded into the identical-segments case (return 0, state
untouched), and an `Overlap p p` whose two reported coordinates are equal
is processed exactly like any other overlap, since the overlap branch never
reads the reported coordinates. -/
theorem C8_no_assert (intersect : Pt → Pt → Pt → Pt → LineIntersection Pt)
    (ptLt : Pt → Pt → Bool) (i1 i2 o1Id o2Id : Nat) (st : State Pt)
    (se1 other1 se2 other2 : SweepEvent Pt)
    (h1 : lookupPair st i1 = some (se1, o1Id, other1))
    (h2 : lookupPair st i2 = some (se2, o2Id, other2)) :
    (∀ p, intersect se1.point other1.point se2.point other2.point = LineIntersection.Point p →
      se1.point = se2.point → other1.point = other2.point →
      possible_intersection intersect ptLt i1 i2 st = (0, st)) ∧
    (∀ p, intersect se1.point other1.point se2.point other2.point =
        LineIntersection.Overlap p p →
      possible_intersection intersect ptLt i1 i2 st =
        (if se1.isSubject = se2.isSubject then (0, st)
         else overlapResolve ptLt i1 o1Id i2 o2Id se1 other1 se2 other2 st)) := by
  constructor
  · intro p hp hpl hpr
    simp only [possible_intersection, h1, h2, hp]
    rw [if_pos ⟨hpl, hpr⟩]
  · intro p hp
    simp only [possible_intersection, h1, h2, hp]

theorem C8_no_assert_witness :
    possible_intersection (constPoint (9, 9)) lexLt 0 2
        (twoEdgeState (0, 0) (1, 0) (0, 0) (1, 0) true true) =
      (0, twoEdgeState (0, 0) (1, 0) (0, 0) (1, 0) true true) :=
  (C8_no_assert (constPoint (9, 9)) lexLt 0 2 1 3
    (twoEdgeState (0, 0) (1, 0) (0, 0) (1, 0) true true)
    { point := (0, 0), isLeft := true, otherEvent := some 1, isSubject := true,
      edgeType := EdgeType.Normal, inOut := true }
    { point := (1, 0), isLeft := false, otherEvent := some 0, isSubject := true,
      edgeType := EdgeType.Normal, inOut := true }
    { point := (0, 0), isLeft := true, otherEvent := some 3, isSubject := false,
      edgeType := EdgeType.Normal, inOut := true }
    { point := (1, 0), isLeft := false, otherEvent := some 2, isSubject := false,
      edgeType := EdgeType.Normal, inOut := true }
    (by decide) (by decide)).1 (9, 9) (by decide) (by decide) (by decide)

/-- C4 divergence witness (full containment, subject edge 0-10 containing
clip edge 2-5): the code returns 3 and performs two splits, but instead of
three ordered fragments of the containing edge with the middle one
coincident with the contained edge, the resulting store holds a fragment
(0,0)-(5,0) overlapping the contained edge, an inverted pair whose left
event at (5,0) points back to (2,0), and no subject fragment coincident
with the contained edge (2,0)-(5,0). -/
theorem C4_full_containment_divergence :
    (possible_intersection (constOverlap (0, 0) (0, 0)) lexLt 0 2 stContain).1 = 3 ∧
    spanOf (possible_intersection (constOverlap (0, 0) (0, 0)) lexLt 0 2 stContain).2 0 =
      some ((0, 0), (5, 0)) ∧
    spanOf (possible_intersection (constOverlap (0, 0) (0, 0)) lexLt 0 2 stContain).2 7 =
      some ((5, 0), (2, 0)) ∧
    spanOf (possible_intersection (constOverlap (0, 0) (0, 0)) lexLt 0 2 stContain).2 2 =
      some ((2, 0), (5, 0)) ∧
    (∀ k, k < 8 → ¬ (spanOf (possible_intersection (constOverlap (0, 0) (0, 0)) lexLt 0 2
        stContain).2 k = some (((2, 0) : Int × Int), ((5, 0) : Int × Int)) ∧
      ∃ e, (possible_intersection (constOverlap (0, 0) (0, 0)) lexLt 0 2
        stContain).2.events[k]? = some e ∧ e.isSubject = true ∧ e.isLeft = true)) := by
  decide

/-- C5 divergence witness: on the same full-containment instance the
resolver's second splitter call passes split point (5, 0) to an edge whose
current endpoints at the moment of the call are (0, 0) and (2, 0) — the
split point is not strictly between them, violating the splitter's
precondition. -/
theorem C5_containment_precondition_violation :
    (possible_intersection (constOverlap (0, 0) (0, 0)) lexLt 0 2 stContain).2.log =
      [{ seId := 0, leftPoint := (0, 0), rightPoint := (10, 0), splitPoint := (2, 0) },
       { seId := 0, leftPoint := (0, 0), rightPoint := (2, 0), splitPoint := (5, 0) }] ∧
    lexLt (0, 0) (2, 0) = true ∧
    ¬ (lexLt (0, 0) (5, 0) = true ∧ lexLt (5, 0) (2, 0) = true) := by
  decide


theorem C1_action_codes_witness :
    (possible_intersection constNone lexLt 0 2 stCross).1 = 0 ∧
    (possible_intersection constNone lexLt 0 2 stCross).2 = stCross :=
  ⟨by decide,
    (C1_action_codes constNone lexLt 0 2 stCross).2.1 (by decide)⟩

end Booleanop
